import Mathlib

/-!
Verification of the Teams ↔ helpdesk conversation bridge.

Shallow embedding of the core of the bridge:
- the outbound send retry policy (app/core/router.py),
- the webhook dedup layer and event parsing (app/adapters/freshchat/webhook.py),
- attachment classification and combined outbound text (app/core/router.py),
- the conversation store (modelled from the spec, the module app.core.store
  is not part of the provided sources) and the router state machine,
- the tenant configuration cache (app/core/tenant.py),
- the webhook HTTP routes (app/adapters/freshchat/routes.py),
- public key normalization (app/adapters/freshchat/webhook.py).

Network calls, clocks and randomness are modelled as oracles passed in
explicitly; machine floats for timestamps and delays are modelled as
integers (seconds) and rationals respectively.
-/

namespace Bridge

/-! ## Outbound send retry policy

Embedding of MessageRouter._is_transient_error and
MessageRouter._send_with_retries (app/core/router.py lines 1006-1055).

The outcome of each call to client.send_message is an oracle indexed by
the 1-based attempt number; random.uniform(0, 0.2) is an oracle jitter
value per attempt. -/

/-- An error raised by client.send_message: an httpx.HTTPStatusError with a
status code, an httpx.TransportError, or any other exception. -/
inductive SendError : Type
  | httpStatus (code : Nat)
  | transport
  | other
  deriving DecidableEq, Repr

/-- Outcome of one client.send_message call: a returned boolean or a raised
error. -/
inductive SendOutcome : Type
  | ok (b : Bool)
  | err (e : SendError)
  deriving DecidableEq, Repr

/-- MessageRouter._is_transient_error: HTTP 429 or any 500..599 status, or a
transport-level error, is transient; everything else is not. -/
def is_transient_error : SendError → Bool
  | .httpStatus status => status == 429 || (500 ≤ status && status ≤ 599)
  | .transport => true
  | .other => false

/-- Trace of one _send_with_retries run: how many times client.send_message
was called, the sleep taken after each non-final attempt (in order, in
seconds), and the returned boolean. -/
structure SendTrace where
  calls : Nat
  delays : List ℚ
  result : Bool
  deriving DecidableEq, Repr

/-- The retry loop of _send_with_retries. remaining counts the attempts still
allowed including the current one (so the first call has remaining =
max_attempts); attempt is the 1-based attempt number. A raised error ends the
loop immediately when the attempt is the last one or the error is not
transient; otherwise the loop sleeps base_delay * 2^(attempt-1) plus jitter
and retries. -/
def sendLoop (outcome : Nat → SendOutcome) (jitter : Nat → ℚ) :
    Nat → Nat → SendTrace
  | 0, _ => ⟨0, [], false⟩
  | remaining + 1, attempt =>
    match outcome attempt with
    | .ok b => ⟨1, [], b⟩
    | .err e =>
      if remaining = 0 || !is_transient_error e then
        ⟨1, [], false⟩
      else
        let delay : ℚ := (1 / 2 : ℚ) * 2 ^ (attempt - 1) + jitter attempt
        let rest := sendLoop outcome jitter remaining (attempt + 1)
        ⟨rest.calls + 1, delay :: rest.delays, rest.result⟩

/-- MessageRouter._send_with_retries with max_attempts = 3 and
base_delay = 0.5 seconds. -/
def send_with_retries (outcome : Nat → SendOutcome) (jitter : Nat → ℚ) :
    SendTrace :=
  sendLoop outcome jitter 3 1

theorem swr_ok1 (outcome : Nat → SendOutcome) (jitter : Nat → ℚ) (b : Bool)
    (h1 : outcome 1 = .ok b) :
    send_with_retries outcome jitter = ⟨1, [], b⟩ := by
  simp [send_with_retries, sendLoop, h1]

theorem swr_err1_stop (outcome : Nat → SendOutcome) (jitter : Nat → ℚ)
    (e : SendError) (h1 : outcome 1 = .err e)
    (he : is_transient_error e = false) :
    send_with_retries outcome jitter = ⟨1, [], false⟩ := by
  simp [send_with_retries, sendLoop, h1, he]

theorem swr_err1_ok2 (outcome : Nat → SendOutcome) (jitter : Nat → ℚ)
    (e : SendError) (b : Bool) (h1 : outcome 1 = .err e)
    (he : is_transient_error e = true) (h2 : outcome 2 = .ok b) :
    send_with_retries outcome jitter =
      ⟨2, [(1 / 2 : ℚ) * 2 ^ 0 + jitter 1], b⟩ := by
  simp [send_with_retries, sendLoop, h1, he, h2]

theorem swr_err12_stop (outcome : Nat → SendOutcome) (jitter : Nat → ℚ)
    (e₁ e₂ : SendError) (h1 : outcome 1 = .err e₁)
    (he₁ : is_transient_error e₁ = true) (h2 : outcome 2 = .err e₂)
    (he₂ : is_transient_error e₂ = false) :
    send_with_retries outcome jitter =
      ⟨2, [(1 / 2 : ℚ) * 2 ^ 0 + jitter 1], false⟩ := by
  simp [send_with_retries, sendLoop, h1, he₁, h2, he₂]

theorem swr_err12_ok3 (outcome : Nat → SendOutcome) (jitter : Nat → ℚ)
    (e₁ e₂ : SendError) (b : Bool) (h1 : outcome 1 = .err e₁)
    (he₁ : is_transient_error e₁ = true) (h2 : outcome 2 = .err e₂)
    (he₂ : is_transient_error e₂ = true) (h3 : outcome 3 = .ok b) :
    send_with_retries outcome jitter =
      ⟨3, [(1 / 2 : ℚ) * 2 ^ 0 + jitter 1, (1 / 2 : ℚ) * 2 ^ 1 + jitter 2],
        b⟩ := by
  simp [send_with_retries, sendLoop, h1, he₁, h2, he₂, h3]

theorem swr_err123 (outcome : Nat → SendOutcome) (jitter : Nat → ℚ)
    (e₁ e₂ e₃ : SendError) (h1 : outcome 1 = .err e₁)
    (he₁ : is_transient_error e₁ = true) (h2 : outcome 2 = .err e₂)
    (he₂ : is_transient_error e₂ = true) (h3 : outcome 3 = .err e₃) :
    send_with_retries outcome jitter =
      ⟨3, [(1 / 2 : ℚ) * 2 ^ 0 + jitter 1, (1 / 2 : ℚ) * 2 ^ 1 + jitter 2],
        false⟩ := by
  simp [send_with_retries, sendLoop, h1, he₁, h2, he₂, h3]

/-- C2: for every outbound send, _send_with_retries calls client.send_message
at most 3 times; every attempt that was followed by another had raised a
transient error (HTTP 429, a 5xx status, or a transport failure); an attempt
that raises a non-transient error ends the run immediately with a failure
result; the delay before retry k+1 is 0.5 * 2^(k-1) seconds plus the jitter
value drawn for that attempt, there is exactly one delay per non-final
attempt and none after the final one; each delay lies within
[0.5 * 2^(k-1), 0.5 * 2^(k-1) + 0.2] when the jitter oracle models
random.uniform(0, 0.2). -/
theorem retry_policy (outcome : Nat → SendOutcome) (jitter : Nat → ℚ)
    (hj : ∀ k, 0 ≤ jitter k ∧ jitter k ≤ 1 / 5) :
    (send_with_retries outcome jitter).calls ≤ 3 ∧
    (send_with_retries outcome jitter).delays =
      (List.range ((send_with_retries outcome jitter).calls - 1)).map
        (fun k => (1 / 2 : ℚ) * 2 ^ k + jitter (k + 1)) ∧
    (∀ k, k + 1 < (send_with_retries outcome jitter).calls →
      ∃ e, outcome (k + 1) = SendOutcome.err e ∧ is_transient_error e = true) ∧
    (∀ k e, k + 1 ≤ (send_with_retries outcome jitter).calls →
      outcome (k + 1) = SendOutcome.err e → is_transient_error e = false →
      (send_with_retries outcome jitter).calls = k + 1 ∧
      (send_with_retries outcome jitter).result = false) ∧
    (∀ d ∈ (send_with_retries outcome jitter).delays,
      ∃ k, d = (1 / 2 : ℚ) * 2 ^ k + jitter (k + 1) ∧
        (1 / 2 : ℚ) * 2 ^ k ≤ d ∧ d ≤ (1 / 2 : ℚ) * 2 ^ k + 1 / 5) := by
  have hd : ∀ k : Nat, (1 / 2 : ℚ) * 2 ^ k ≤ (1 / 2 : ℚ) * 2 ^ k + jitter (k + 1) ∧
      (1 / 2 : ℚ) * 2 ^ k + jitter (k + 1) ≤ (1 / 2 : ℚ) * 2 ^ k + 1 / 5 := by
    intro k
    have := hj (k + 1)
    constructor <;> linarith [this.1, this.2]
  rcases h1 : outcome 1 with b₁ | e₁
  · rw [swr_ok1 outcome jitter b₁ h1]
    dsimp only
    refine ⟨by norm_num, by simp, ?_, ?_, by simp⟩
    · intro k hk; omega
    · intro k e hk h2 h3
      obtain rfl : k = 0 := by omega
      · rw [h1] at h2; cases h2
  · rcases he₁ : is_transient_error e₁ with _ | _
    · rw [swr_err1_stop outcome jitter e₁ h1 he₁]
      dsimp only
      refine ⟨by norm_num, by simp, ?_, ?_, by simp⟩
      · intro k hk; omega
      · intro k e hk h2 h3
        obtain rfl : k = 0 := by omega
        · simp
    · rcases h2 : outcome 2 with b₂ | e₂
      · rw [swr_err1_ok2 outcome jitter e₁ b₂ h1 he₁ h2]
        dsimp only
        refine ⟨by norm_num, by simp [List.range_succ], ?_, ?_, ?_⟩
        · intro k hk
          obtain rfl : k = 0 := by omega
          · exact ⟨e₁, h1, he₁⟩
        · intro k e hk hke h3
          obtain rfl | rfl : k = 0 ∨ k = 1 := by omega
          · rw [h1] at hke; cases hke; rw [he₁] at h3; cases h3
          · rw [h2] at hke; cases hke
        · intro d hdm
          simp only [List.mem_singleton] at hdm
          exact ⟨0, hdm, by rw [hdm]; exact hd 0⟩
      · rcases he₂ : is_transient_error e₂ with _ | _
        · rw [swr_err12_stop outcome jitter e₁ e₂ h1 he₁ h2 he₂]
          dsimp only
          refine ⟨by norm_num, by simp [List.range_succ], ?_, ?_, ?_⟩
          · intro k hk
            obtain rfl : k = 0 := by omega
            · exact ⟨e₁, h1, he₁⟩
          · intro k e hk hke h3
            obtain rfl | rfl : k = 0 ∨ k = 1 := by omega
            · rw [h1] at hke; cases hke; rw [he₁] at h3; cases h3
            · simp
          · intro d hdm
            simp only [List.mem_singleton] at hdm
            exact ⟨0, hdm, by rw [hdm]; exact hd 0⟩
        · rcases h3 : outcome 3 with b₃ | e₃
          · rw [swr_err12_ok3 outcome jitter e₁ e₂ b₃ h1 he₁ h2 he₂ h3]
            dsimp only
            refine ⟨by norm_num, ?_, ?_, ?_, ?_⟩
            · simp [List.range_succ]
            · intro k hk
              obtain rfl | rfl : k = 0 ∨ k = 1 := by omega
              · exact ⟨e₁, h1, he₁⟩
              · exact ⟨e₂, h2, he₂⟩
            · intro k e hk hke hf
              obtain rfl | rfl | rfl : k = 0 ∨ k = 1 ∨ k = 2 := by omega
              · rw [h1] at hke; cases hke; rw [he₁] at hf; cases hf
              · rw [h2] at hke; cases hke; rw [he₂] at hf; cases hf
              · rw [h3] at hke; cases hke
            · intro d hdm
              rcases List.mem_pair.mp hdm with rfl | rfl
              · exact ⟨0, rfl, hd 0⟩
              · exact ⟨1, rfl, hd 1⟩
          · rw [swr_err123 outcome jitter e₁ e₂ e₃ h1 he₁ h2 he₂ h3]
            dsimp only
            refine ⟨by norm_num, ?_, ?_, ?_, ?_⟩
            · simp [List.range_succ]
            · intro k hk
              obtain rfl | rfl : k = 0 ∨ k = 1 := by omega
              · exact ⟨e₁, h1, he₁⟩
              · exact ⟨e₂, h2, he₂⟩
            · intro k e hk hke hf
              obtain rfl | rfl | rfl : k = 0 ∨ k = 1 ∨ k = 2 := by omega
              · rw [h1] at hke; cases hke; rw [he₁] at hf; cases hf
              · rw [h2] at hke; cases hke; rw [he₂] at hf; cases hf
              · simp
            · intro d hdm
              rcases List.mem_pair.mp hdm with rfl | rfl
              · exact ⟨0, rfl, hd 0⟩
              · exact ⟨1, rfl, hd 1⟩

/-- Witness for retry_policy: a concrete run whose first attempt succeeds,
with a zero jitter oracle satisfying the jitter-range hypothesis. -/
theorem retry_policy_witness :
    (∀ k : Nat, (0 : ℚ) ≤ (fun _ : Nat => (0 : ℚ)) k ∧
      (fun _ : Nat => (0 : ℚ)) k ≤ 1 / 5) ∧
    (send_with_retries (fun _ => SendOutcome.ok true)
      (fun _ : Nat => (0 : ℚ))).calls ≤ 3 :=
  ⟨fun _ => ⟨by norm_num, by norm_num⟩,
    (retry_policy (fun _ => SendOutcome.ok true) (fun _ : Nat => (0 : ℚ))
      (fun _ => ⟨by norm_num, by norm_num⟩)).1⟩

/-! ## Webhook integrity layer: dedup and event parsing

Embedding of FreshchatWebhookHandler (app/adapters/freshchat/webhook.py):
the processed-messages map is an association list from message id to the
first-seen timestamp (seconds, as integers standing for time.time()); JSON
dicts are embedded as structures whose optional fields are the keys the
code reads; Python truthiness of strings ("" is falsy) is made explicit. -/

/-- DEDUP_TTL_SECONDS: dedup entry time-to-live, 10 minutes. -/
def DEDUP_TTL_SECONDS : Int := 600

/-- MAX_PROCESSED_MESSAGES: soft capacity bound of the dedup map. -/
def MAX_PROCESSED_MESSAGES : Nat := 2000

/-- The handler's _processed_messages dict: message_id -> first-seen time. -/
structure DedupState where
  processed : List (String × Int)
  deriving DecidableEq, Repr

/-- Python truthiness of an optional string: None and "" are falsy. -/
def strTruthy : Option String → Bool
  | none => false
  | some s => s ≠ ""

/-- Python `a or b` on two optional strings (left operand wins when truthy,
otherwise the right operand is returned as-is). -/
def pyOrO (a b : Option String) : Option String :=
  if strTruthy a then a else b

/-- Python `a or b or d` where d is a (truthy) string literal default. -/
def pyOrDefault (a b : Option String) (d : String) : String :=
  match pyOrO a b with
  | some s => if s ≠ "" then s else d
  | none => d

/-- FreshchatWebhookHandler.is_duplicate_message: expired entries are swept
only when the map holds more than MAX_PROCESSED_MESSAGES entries; a present
id is a duplicate regardless of its age; a fresh id is recorded with the
current time. An empty id is never a duplicate and is not recorded. -/
def is_duplicate_message (st : DedupState) (now : Int) (message_id : String) :
    Bool × DedupState :=
  if message_id = "" then (false, st)
  else
    let m :=
      if st.processed.length > MAX_PROCESSED_MESSAGES then
        st.processed.filter (fun p => !decide (now - p.2 > DEDUP_TTL_SECONDS))
      else st.processed
    if (m.lookup message_id).isSome then (true, ⟨m⟩)
    else (false, ⟨(message_id, now) :: m⟩)

/-- A parsed attachment (dataclass ParsedAttachment). -/
structure ParsedAttachment where
  type : String
  url : Option String := none
  name : Option String := none
  content_type : Option String := none
  file_hash : Option String := none
  file_id : Option String := none
  deriving DecidableEq, Repr

/-- A parsed message (dataclass ParsedMessage). -/
structure ParsedMessage where
  id : String
  text : Option String := none
  attachments : List ParsedAttachment := []
  actor_type : String := "user"
  actor_id : Option String := none
  created_time : Option String := none
  deriving DecidableEq, Repr

/-- A normalized webhook event (dataclass WebhookEvent); raw_data is kept
only for diagnostics in the source and is dropped here. -/
structure WebhookEvent where
  action : String
  conversation_id : Option String := none
  conversation_numeric_id : Option String := none
  message : Option ParsedMessage := none
  user_id : Option String := none
  deriving DecidableEq, Repr

/-- The dict found under an image/file/video key of a message part; fields
are the keys the parser reads. -/
structure PartMedia where
  url : Option String := none
  download_url : Option String := none
  downloadUrl : Option String := none
  name : Option String := none
  content_type : Option String := none
  contentType : Option String := none
  file_hash : Option String := none
  fileHash : Option String := none
  file_id : Option String := none
  fileId : Option String := none
  deriving DecidableEq, Repr

/-- One element of message_parts; a field is some iff the key is present.
The text field holds part["text"].get("content", ""). -/
structure MessagePart where
  text : Option String := none
  image : Option PartMedia := none
  file : Option PartMedia := none
  video : Option PartMedia := none
  deriving DecidableEq, Repr

/-- The dict under data["message"]; fields are the keys the parser reads. -/
structure MessageData where
  id : Option String := none
  actor_type : Option String := none
  actor_id : Option String := none
  created_time : Option String := none
  conversation_id : Option String := none
  message_parts : List MessagePart := []
  deriving DecidableEq, Repr

/-- The dict under data["conversation"]. Numeric ids are embedded
post-str(): as the string the code would produce. -/
structure ConversationData where
  conversation_id : Option String := none
  id : Option String := none
  conversation_numeric_id : Option String := none
  deriving DecidableEq, Repr

/-- The dict under payload["data"]. -/
structure EventData where
  message : Option MessageData := none
  conversation : Option ConversationData := none
  user_id : Option String := none
  deriving DecidableEq, Repr

/-- A webhook payload: the action name and the data dict. -/
structure WebhookPayload where
  action : Option String := none
  data : Option EventData := none
  deriving DecidableEq, Repr

/-- url resolution for a media dict: url or download_url or downloadUrl. -/
def mediaUrl (m : PartMedia) : Option String :=
  pyOrO (pyOrO m.url m.download_url) m.downloadUrl

/-- FreshchatWebhookHandler._parse_message: text parts are concatenated in
order joined by newlines; image, file and video parts are collected in order
(a part carrying several keys is classified by the first matching key in the
order text, image, file, video, following the if/elif chain). -/
def parse_message (md : MessageData) : ParsedMessage :=
  let step := fun (acc : List String × List ParsedAttachment)
      (part : MessagePart) =>
    match part.text with
    | some content => if content ≠ "" then (acc.1 ++ [content], acc.2) else acc
    | none =>
      match part.image with
      | some image =>
        (acc.1, acc.2 ++ [⟨"image", mediaUrl image, image.name,
          some (pyOrDefault image.content_type image.contentType "image/png"),
          pyOrO image.file_hash image.fileHash,
          pyOrO image.file_id image.fileId⟩])
      | none =>
        match part.file with
        | some f =>
          (acc.1, acc.2 ++ [⟨"file", mediaUrl f, f.name,
            some (pyOrDefault f.content_type f.contentType
              "application/octet-stream"),
            pyOrO f.file_hash f.fileHash,
            pyOrO f.file_id f.fileId⟩])
        | none =>
          match part.video with
          | some v =>
            (acc.1, acc.2 ++ [⟨"video", mediaUrl v, v.name,
              some (pyOrDefault v.content_type v.contentType "video/mp4"),
              none, none⟩])
          | none => acc
  let r := md.message_parts.foldl step ([], [])
  { id := md.id.getD ""
    text := if r.1 = [] then none else some (String.intercalate "\n" r.1)
    attachments := r.2
    actor_type := md.actor_type.getD "user"
    actor_id := md.actor_id
    created_time := md.created_time }

/-- FreshchatWebhookHandler._parse_resolution_event. -/
def parse_resolution_event (data : EventData) : Option WebhookEvent :=
  let conversation := data.conversation.getD {}
  let conversation_id := conversation.conversation_id
  let numeric_id := pyOrO conversation.id conversation.conversation_numeric_id
  if !strTruthy conversation_id && !strTruthy numeric_id then none
  else
    some { action := "conversation_resolution"
           conversation_id := conversation_id
           conversation_numeric_id :=
             if strTruthy numeric_id then numeric_id else none
           message := some { id := "resolution"
                             text := some "[대화가 종료되었습니다]"
                             actor_type := "system" } }

/-- FreshchatWebhookHandler._parse_message_event: a missing message id yields
no event and records nothing; a duplicate id (checked and recorded before any
other filter) yields no event; a user-authored message is dropped (echo
prevention) after being recorded; a missing conversation id (after the
message_data fallback) yields no event. -/
def parse_message_event (st : DedupState) (now : Int) (data : EventData) :
    Option WebhookEvent × DedupState :=
  let message_data := data.message.getD {}
  match message_data.id with
  | none => (none, st)
  | some mid =>
    if mid = "" then (none, st)
    else
      let res := is_duplicate_message st now mid
      let st' := res.2
      if res.1 then (none, st')
      else
        let actor_type := message_data.actor_type.getD "user"
        if actor_type = "user" then (none, st')
        else
          let conversation := data.conversation.getD {}
          let conversation_id0 := conversation.conversation_id
          let numeric_id := conversation.id
          let conversation_id :=
            if !strTruthy conversation_id0 && !strTruthy numeric_id then
              message_data.conversation_id
            else conversation_id0
          if !strTruthy conversation_id && !strTruthy numeric_id then
            (none, st')
          else
            (some { action := "message_create"
                    conversation_id := conversation_id
                    conversation_numeric_id :=
                      if strTruthy numeric_id then numeric_id else none
                    message := some (parse_message message_data)
                    user_id := data.user_id }, st')

/-- FreshchatWebhookHandler.parse_webhook. -/
def parse_webhook (st : DedupState) (now : Int) (payload : WebhookPayload) :
    Option WebhookEvent × DedupState :=
  let action := payload.action.getD ""
  let data := payload.data.getD {}
  if action = "conversation_resolution" || action = "conversation:resolve" then
    (parse_resolution_event data, st)
  else if action = "message_create" then
    parse_message_event st now data
  else (none, st)

theorem lookup_isSome_of_mem {l : List (String × Int)} {mid : String}
    {t : Int} (h : (mid, t) ∈ l) : (l.lookup mid).isSome = true := by
  induction l with
  | nil => simp at h
  | cons p rest ih =>
    obtain ⟨k, v⟩ := p
    simp only [List.lookup]
    cases hb : (mid == k) with
    | false =>
      rcases List.mem_cons.mp h with h | h
      · have hk : mid = k := congrArg Prod.fst h
        rw [hk] at hb
        simp at hb
      · exact ih h
    | true => rfl

theorem lookup_filter_none {l : List (String × Int)} {mid : String}
    (p : String × Int → Bool) (h : l.lookup mid = none) :
    (l.filter p).lookup mid = none := by
  induction l with
  | nil => simp
  | cons q rest ih =>
    obtain ⟨k, v⟩ := q
    by_cases hk : mid = k
    · subst hk; simp [List.lookup] at h
    · have hb : (mid == k) = false := beq_eq_false_iff_ne.mpr hk
      rw [List.lookup, hb] at h
      rw [List.filter]
      cases p (k, v) with
      | true => rw [List.lookup, hb]; exact ih h
      | false => exact ih h

theorem isdup_fresh (st : DedupState) (now : Int) (mid : String)
    (hmid : mid ≠ "") (hlk : st.processed.lookup mid = none) :
    is_duplicate_message st now mid =
      (false, ⟨(mid, now) ::
        (if st.processed.length > MAX_PROCESSED_MESSAGES then
          st.processed.filter
            (fun p => !decide (now - p.2 > DEDUP_TTL_SECONDS))
        else st.processed)⟩) := by
  unfold is_duplicate_message
  rw [if_neg hmid]
  have hlk' :
      ((if st.processed.length > MAX_PROCESSED_MESSAGES then
          st.processed.filter
            (fun p => !decide (now - p.2 > DEDUP_TTL_SECONDS))
        else st.processed).lookup mid) = none := by
    split
    · exact lookup_filter_none _ hlk
    · exact hlk
  simp only [hlk', Option.isSome_none, Bool.false_eq_true, if_false]

theorem isdup_dup (st : DedupState) (now : Int) (mid : String) (t : Int)
    (hmid : mid ≠ "") (hmem : (mid, t) ∈ st.processed)
    (hkeep : ¬(now - t > DEDUP_TTL_SECONDS)) :
    (is_duplicate_message st now mid).1 = true := by
  unfold is_duplicate_message
  rw [if_neg hmid]
  have hmem' : (mid, t) ∈
      (if st.processed.length > MAX_PROCESSED_MESSAGES then
        st.processed.filter (fun p => !decide (now - p.2 > DEDUP_TTL_SECONDS))
      else st.processed) := by
    split
    · exact List.mem_filter.mpr ⟨hmem, by simpa using hkeep⟩
    · exact hmem
  simp only [lookup_isSome_of_mem hmem', if_true]

/-- C3: submitting the same webhook message id twice, the second within the
10-minute dedup TTL of the first, yields exactly one parsed WebhookEvent:
the first _parse_message_event records the id and produces an event, the
second returns none, so the duplicate never reaches handle_webhook. -/
theorem dedup_idempotence (st0 : DedupState) (d1 d2 : EventData)
    (mid : String) (t1 t2 : Int) (hmid : mid ≠ "")
    (h1 : (d1.message.getD {}).id = some mid)
    (h2 : (d2.message.getD {}).id = some mid)
    (hlk : st0.processed.lookup mid = none)
    (hactor : (d1.message.getD {}).actor_type.getD "user" ≠ "user")
    (hconv : strTruthy (d1.conversation.getD {}).conversation_id = true)
    (httl : t2 - t1 ≤ DEDUP_TTL_SECONDS) :
    (parse_message_event st0 t1 d1).1.isSome = true ∧
    (parse_message_event (parse_message_event st0 t1 d1).2 t2 d2).1 =
      none := by
  have hdup1 := isdup_fresh st0 t1 mid hmid hlk
  have hfst : (parse_message_event st0 t1 d1).1.isSome = true := by
    simp [parse_message_event, h1, hdup1, hmid, hactor, hconv]
  refine ⟨hfst, ?_⟩
  have hst' : (parse_message_event st0 t1 d1).2 =
      ⟨(mid, t1) ::
        (if st0.processed.length > MAX_PROCESSED_MESSAGES then
          st0.processed.filter
            (fun p => !decide (t1 - p.2 > DEDUP_TTL_SECONDS))
        else st0.processed)⟩ := by
    simp [parse_message_event, h1, hdup1, hmid, hactor, hconv]
  rw [hst']
  have hmem : (mid, t1) ∈
      ((mid, t1) ::
        (if st0.processed.length > MAX_PROCESSED_MESSAGES then
          st0.processed.filter
            (fun p => !decide (t1 - p.2 > DEDUP_TTL_SECONDS))
        else st0.processed)) := List.mem_cons_self _ _
  have hdup2 := isdup_dup
    ⟨(mid, t1) ::
      (if st0.processed.length > MAX_PROCESSED_MESSAGES then
        st0.processed.filter
          (fun p => !decide (t1 - p.2 > DEDUP_TTL_SECONDS))
      else st0.processed)⟩ t2 mid t1 hmid hmem (by
        simp only [DEDUP_TTL_SECONDS] at httl ⊢
        omega)
  simp [parse_message_event, h2, hmid, hdup2]

/-- Witness for dedup_idempotence at a concrete agent message. -/
theorem dedup_idempotence_witness :
    (let d : EventData :=
      { message := some { id := some "m1", actor_type := some "agent" }
        conversation := some { conversation_id := some "c1" } }
     (parse_message_event ⟨[]⟩ 0 d).1.isSome = true ∧
     (parse_message_event (parse_message_event ⟨[]⟩ 0 d).2 500 d).1 =
       none) :=
  dedup_idempotence ⟨[]⟩ _ _ "m1" 0 500 (by decide) rfl rfl rfl
    (by decide) (by decide) (by decide)

/-- C9: an id present in the dedup map is reported as a duplicate without
any comparison of its first-seen time against the TTL; while the map holds
at most 2,000 entries the lazy sweep never runs, so the repeat is dropped
(and the map left unchanged) arbitrarily long after the TTL expired. -/
theorem dedup_ttl_not_checked (st : DedupState) (mid : String)
    (t1 now : Int) (hmid : mid ≠ "")
    (hm : st.processed.lookup mid = some t1)
    (hlen : st.processed.length ≤ MAX_PROCESSED_MESSAGES)
    (hexp : now - t1 > DEDUP_TTL_SECONDS) :
    is_duplicate_message st now mid = (true, st) := by
  unfold is_duplicate_message
  rw [if_neg hmid]
  have hnot : ¬ st.processed.length > MAX_PROCESSED_MESSAGES := by omega
  simp only [if_neg hnot, hm, Option.isSome_some, if_true]

/-- Witness for dedup_ttl_not_checked: a repeat 10000 seconds later. -/
theorem dedup_ttl_not_checked_witness :
    is_duplicate_message ⟨[("m1", 0)]⟩ 10000 "m1" = (true, ⟨[("m1", 0)]⟩) :=
  dedup_ttl_not_checked ⟨[("m1", 0)]⟩ "m1" 0 10000 (by decide) (by decide)
    (by decide) (by decide)

/-! ## Attachment classification and combined outbound text

Embedding of MessageRouter._is_image_content_type,
MessageRouter._is_video_content_type, MessageRouter._escape_markdown_link_text
and the classification and text-assembly part of
MessageRouter._send_combined_message_to_teams (app/core/router.py). -/

/-- Python str.lower for the ASCII data handled here. -/
def pyLower (s : String) : String := ⟨s.data.map Char.toLower⟩

/-- Python str.startswith. -/
def pyStartsWith (s p : String) : Bool := p.data.isPrefixOf s.data

/-- Python str.endswith. -/
def pyEndsWith (s p : String) : Bool := p.data.isSuffixOf s.data

/-- Python str.replace with a single-character pattern and replacement. -/
def pyReplaceChar (s : String) (a b : Char) : String :=
  ⟨s.data.map (fun c => if c = a then b else c)⟩

/-- The image file extensions recognized by _is_image_content_type. -/
def image_exts : List String :=
  [".png", ".jpg", ".jpeg", ".gif", ".bmp", ".webp", ".svg", ".ico",
   ".tiff", ".heic", ".heif"]

/-- The video file extensions recognized by _is_video_content_type. -/
def video_exts : List String :=
  [".mp4", ".webm", ".mov", ".avi", ".mkv", ".m4v", ".wmv"]

/-- MessageRouter._is_image_content_type: a truthy content type wins when it
starts with image/ (case-insensitively); otherwise a truthy filename is
tested against the extension list; otherwise false. -/
def is_image_content_type (content_type filename : Option String) : Bool :=
  if strTruthy content_type &&
      pyStartsWith (pyLower (content_type.getD "")) "image/" then true
  else if strTruthy filename then
    image_exts.any (fun ext => pyEndsWith (pyLower (filename.getD "")) ext)
  else false

/-- MessageRouter._is_video_content_type. -/
def is_video_content_type (content_type filename : Option String) : Bool :=
  if strTruthy content_type &&
      pyStartsWith (pyLower (content_type.getD "")) "video/" then true
  else if strTruthy filename then
    video_exts.any (fun ext => pyEndsWith (pyLower (filename.getD "")) ext)
  else false

/-- MessageRouter._escape_markdown_link_text: four chained str.replace
calls; the earlier replacements feed the later ones, so both [ and ( end up
as an opening brace and both ] and ) end up as a closing brace. -/
def escape_markdown_link_text (text : String) : String :=
  if text = "" then ""
  else
    pyReplaceChar (pyReplaceChar (pyReplaceChar (pyReplaceChar
      text '[' '(') ']' ')') '(' '\x7b') ')' '\x7d' 

/-- How _send_combined_message_to_teams treats one attachment. -/
inductive AttachmentClass : Type
  | skipped
  | image
  | video
  | file
  deriving DecidableEq, Repr

/-- The per-attachment decision of _send_combined_message_to_teams: an
attachment without a truthy url is skipped; otherwise the image test runs
first (declared kind, then content type, then extension), the video test
second, and everything else is a generic file. -/
def classify_attachment (att : ParsedAttachment) : AttachmentClass :=
  if !strTruthy att.url then .skipped
  else if att.type == "image" ||
      is_image_content_type att.content_type att.name then .image
  else if att.type == "video" ||
      is_video_content_type att.content_type att.name then .video
  else .file

/-- The single classification pass of _send_combined_message_to_teams,
building the image, video and file lists in input order. -/
def classify_attachments (atts : List ParsedAttachment) :
    List ParsedAttachment × List ParsedAttachment × List ParsedAttachment :=
  atts.foldl
    (fun acc att =>
      match classify_attachment att with
      | .skipped => acc
      | .image => (acc.1 ++ [att], acc.2.1, acc.2.2)
      | .video => (acc.1, acc.2.1 ++ [att], acc.2.2)
      | .file => (acc.1, acc.2.1, acc.2.2 ++ [att]))
    ([], [], [])

/-- The markdown link a video attachment contributes to the combined text. -/
def video_link (att : ParsedAttachment) : String :=
  "🎬 [" ++
    escape_markdown_link_text
      (if strTruthy att.name then att.name.getD "" else "video") ++
    "](" ++ att.url.getD "" ++ ")"

/-- The markdown link a file attachment contributes to the combined text. -/
def file_link (att : ParsedAttachment) : String :=
  "📎 [" ++
    escape_markdown_link_text
      (if strTruthy att.name then att.name.getD "" else "file") ++
    "](" ++ att.url.getD "" ++ ")"

/-- The combined-text assembly of _send_combined_message_to_teams: the
original text when truthy, then one link per video attachment, then one link
per file attachment, joined by blank lines; None when there is nothing.
(The overflow image links appended later in the source never reach the
combined text, which is joined before they are added.) -/
def build_combined_text (text : Option String)
    (atts : List ParsedAttachment) : Option String :=
  let c := classify_attachments atts
  let message_parts :=
    (if strTruthy text then [text.getD ""] else []) ++
    c.2.1.map video_link ++ c.2.2.map file_link
  if message_parts = [] then none
  else some (String.intercalate "\n\n" message_parts)

theorem classify_attachments_filter (atts : List ParsedAttachment) :
    classify_attachments atts =
      (atts.filter (fun a => classify_attachment a == .image),
       atts.filter (fun a => classify_attachment a == .video),
       atts.filter (fun a => classify_attachment a == .file)) := by
  suffices h : ∀ (acc : List ParsedAttachment × List ParsedAttachment ×
      List ParsedAttachment),
      atts.foldl
        (fun acc att =>
          match classify_attachment att with
          | .skipped => acc
          | .image => (acc.1 ++ [att], acc.2.1, acc.2.2)
          | .video => (acc.1, acc.2.1 ++ [att], acc.2.2)
          | .file => (acc.1, acc.2.1, acc.2.2 ++ [att]))
        acc =
      (acc.1 ++ atts.filter (fun a => classify_attachment a == .image),
       acc.2.1 ++ atts.filter (fun a => classify_attachment a == .video),
       acc.2.2 ++ atts.filter (fun a => classify_attachment a == .file)) by
    simpa [classify_attachments] using h ([], [], [])
  induction atts with
  | nil => intro acc; simp
  | cons a rest ih =>
    intro acc
    cases hc : classify_attachment a <;>
      simp [List.foldl_cons, hc, List.filter_cons, ih]

/-- C6: when a backend message event is delivered to chat, an attachment
with a truthy url is classified image first (declared kind, then image/
content-type prefix, then image extension), video second (same order of
tests), generic file last; the combined outbound text is the original text,
then one link per video attachment, then one link per file attachment, in
input order, joined by blank lines; and an attachment with no declared kind
but content type image/png is classified as an image, not a generic file. -/
theorem attachment_classification_order (text : Option String)
    (atts : List ParsedAttachment) :
    (∀ att : ParsedAttachment, strTruthy att.url = true →
      (classify_attachment att = .image ↔
        (att.type = "image" ∨
          is_image_content_type att.content_type att.name = true)) ∧
      (classify_attachment att = .video ↔
        (¬(att.type = "image" ∨
            is_image_content_type att.content_type att.name = true) ∧
          (att.type = "video" ∨
            is_video_content_type att.content_type att.name = true))) ∧
      (classify_attachment att = .file ↔
        (¬(att.type = "image" ∨
            is_image_content_type att.content_type att.name = true) ∧
          ¬(att.type = "video" ∨
            is_video_content_type att.content_type att.name = true)))) ∧
    build_combined_text text atts =
      (let parts :=
        (if strTruthy text then [text.getD ""] else []) ++
        (atts.filter (fun a => classify_attachment a == .video)).map
          video_link ++
        (atts.filter (fun a => classify_attachment a == .file)).map
          file_link
       if parts = [] then none
       else some (String.intercalate "\n\n" parts)) ∧
    ∀ url name : String, url ≠ "" →
      classify_attachment
        ⟨"", some url, some name, some "image/png", none, none⟩ =
        .image := by
  refine ⟨?_, ?_, ?_⟩
  · intro att hurl
    unfold classify_attachment
    rw [hurl]
    simp only [Bool.not_true, Bool.false_eq_true, if_false]
    by_cases hi : att.type = "image" ∨
        is_image_content_type att.content_type att.name = true
    · have hib : (att.type == "image" ||
          is_image_content_type att.content_type att.name) = true := by
        rcases hi with h | h <;> simp [h]
      simp [hib, hi]
    · have hib : (att.type == "image" ||
          is_image_content_type att.content_type att.name) = false := by
        rw [Bool.eq_false_iff]
        intro htrue
        rcases Bool.or_eq_true _ _ |>.mp htrue with h | h
        · exact hi (Or.inl (by simpa using h))
        · exact hi (Or.inr h)
      by_cases hv : att.type = "video" ∨
          is_video_content_type att.content_type att.name = true
      · have hvb : (att.type == "video" ||
            is_video_content_type att.content_type att.name) = true := by
          rcases hv with h | h <;> simp [h]
        simp [hib, hvb, hi, hv]
      · have hvb : (att.type == "video" ||
            is_video_content_type att.content_type att.name) = false := by
          rw [Bool.eq_false_iff]
          intro htrue
          rcases Bool.or_eq_true _ _ |>.mp htrue with h | h
          · exact hv (Or.inl (by simpa using h))
          · exact hv (Or.inr h)
        simp [hib, hvb, hi, hv]
  · rw [build_combined_text, classify_attachments_filter]
  · intro url name hurl
    have hc : (strTruthy (some "image/png") &&
        pyStartsWith (pyLower ((some "image/png" : Option String).getD ""))
          "image/") = true := by decide
    have hic : is_image_content_type (some "image/png") (some name) =
        true := by
      rw [is_image_content_type, hc]
      rfl
    unfold classify_attachment
    simp [strTruthy, hurl, hic]

/-! ## Conversation store and router state machine

The router (app/core/router.py) is embedded as a state machine over the
conversation store. The embedding covers the general Freshchat/Zendesk flow
of handle_teams_message from the mapping lookup on (the earlier guards -
missing tenant, missing client, and the Freshdesk POC branches - return
before any store mutation) and the store-relevant part of handle_webhook.
Backend calls (get_or_create_user, create_conversation, send_message) are
outcome oracles; context.send_activity calls are recorded in a trace. -/

/-- The ConversationMapping record persisted in the conversation store
(fields as constructed in MessageRouter._create_new_conversation); the
conversation reference blob is embedded as an association list. -/
structure ConversationMapping where
  teams_conversation_id : String
  teams_user_id : String
  conversation_reference : List (String × String) := []
  platform : String
  platform_conversation_id : String
  platform_conversation_numeric_id : Option String := none
  platform_user_id : Option String := none
  is_resolved : Bool := false
  greeting_sent : Bool := false
  tenant_id : String := ""
  deriving DecidableEq, Repr

/-- Modelled from the spec: the conversation store module (app.core.store)
is not among the provided sources; spec section 6 enumerates its operations
getByChatId, getByBackendId, upsert, markResolved and
updateConversationReference, with the uniqueness constraint
(chatConversationId, platform) enforced by the store on upsert. The store
is a list of mappings; upsert replaces any row with the upserted row's
(teams_conversation_id, platform) key. -/
structure ConversationStore where
  mappings : List ConversationMapping
  deriving DecidableEq, Repr

/-- Modelled from the spec: getByChatId(chatConversationId, platform). -/
def ConversationStore.get_by_teams_id (s : ConversationStore)
    (tid pf : String) : Option ConversationMapping :=
  s.mappings.find?
    (fun m => m.teams_conversation_id == tid && m.platform == pf)

/-- Modelled from the spec: getByBackendId(backendConversationId, platform);
a backend conversation is addressable by its primary or its secondary
(numeric) id. -/
def ConversationStore.get_by_platform_id (s : ConversationStore)
    (cid pf : String) : Option ConversationMapping :=
  s.mappings.find?
    (fun m => (m.platform_conversation_id == cid ||
       m.platform_conversation_numeric_id == some cid) && m.platform == pf)

/-- Modelled from the spec: upsert(mapping) under the
(chatConversationId, platform) uniqueness key. -/
def ConversationStore.upsert (s : ConversationStore)
    (m : ConversationMapping) : ConversationStore :=
  ⟨m :: s.mappings.filter
    (fun x => !(x.teams_conversation_id == m.teams_conversation_id &&
      x.platform == m.platform))⟩

/-- The row update applied by markResolved. -/
def markRow (cid pf : String) (b : Bool) (m : ConversationMapping) :
    ConversationMapping :=
  if (m.platform_conversation_id == cid ||
      m.platform_conversation_numeric_id == some cid) &&
      m.platform == pf then
    { m with is_resolved := b }
  else m

/-- Modelled from the spec: markResolved(backendConversationId, platform,
resolved). -/
def ConversationStore.mark_resolved (s : ConversationStore)
    (cid pf : String) (b : Bool) : ConversationStore :=
  ⟨s.mappings.map (markRow cid pf b)⟩

/-- The row update applied by updateConversationReference. -/
def refRow (tid pf : String) (ref : List (String × String))
    (m : ConversationMapping) : ConversationMapping :=
  if m.teams_conversation_id == tid && m.platform == pf then
    { m with conversation_reference := ref }
  else m

/-- Modelled from the spec:
updateConversationReference(chatConversationId, platform, ref). -/
def ConversationStore.update_conversation_reference (s : ConversationStore)
    (tid pf : String) (ref : List (String × String)) : ConversationStore :=
  ⟨s.mappings.map (refRow tid pf ref)⟩

/-- The Teams-side user attached to an inbound message. -/
structure TeamsUser where
  id : String
  tenant_id : Option String := none
  name : Option String := none
  email : Option String := none
  deriving DecidableEq, Repr

/-- The router-relevant shape of an inbound Teams message; force_new is the
truthiness of metadata.get("force_new_conversation"). -/
structure TeamsMessageInput where
  conversation_id : String
  user : Option TeamsUser := none
  text : Option String := none
  conversation_reference : List (String × String) := []
  force_new : Bool := false
  deriving DecidableEq, Repr

/-- The tenant fields the modelled flow reads. -/
structure TenantInfo where
  id : String
  platform : String
  welcome_message : Option String := none
  deriving DecidableEq, Repr

/-- Outcome oracles for the backend calls one handle_teams_message run can
make: the platform user id returned by get_or_create_user (none = falsy),
the (conversation_id, secondary id) pair returned by create_conversation
(none = falsy result), and the per-attempt send_message outcomes and jitter
driving _send_with_retries. -/
structure HelpdeskOutcomes where
  get_or_create_user : Option String := none
  create_conversation : Option (String × Option String) := none
  send : Nat → SendOutcome := fun _ => SendOutcome.ok true
  jitter : Nat → ℚ := fun _ => 0

/-- User-visible effects of one handle_teams_message run. -/
structure RouterTrace where
  user_messages : List String := []
  create_called : Bool := false
  deriving DecidableEq, Repr

/-- The user-facing failure text sent when conversation creation fails. -/
def connect_fail_text : String :=
  "죄송합니다. 상담 연결에 실패했습니다. 잠시 후 다시 시도해 주세요."

/-- The user-facing failure text sent when a send into an existing
conversation fails. -/
def send_fail_text : String :=
  "메시지 전송에 실패했습니다. 잠시 후 다시 시도해 주세요."

/-- The default greeting used when the tenant has no welcome message. -/
def default_welcome_text : String := "안녕하세요! 상담원이 곧 연결됩니다."

/-- MessageRouter._create_new_conversation: missing user or a falsy
get_or_create_user result aborts before create_conversation is called; a
falsy create_conversation result aborts after; otherwise a fresh open
mapping with greeting_sent = False is upserted and returned. The returned
Bool records whether create_conversation was called. -/
def create_new_conversation (st : ConversationStore)
    (msg : TeamsMessageInput) (tenant : TenantInfo)
    (oc : HelpdeskOutcomes) :
    ConversationStore × Option ConversationMapping × Bool :=
  match msg.user with
  | none => (st, none, false)
  | some user =>
    match oc.get_or_create_user with
    | none => (st, none, false)
    | some platform_user_id =>
      match oc.create_conversation with
      | none => (st, none, true)
      | some (conversation_id, numeric_id) =>
        let m : ConversationMapping :=
          { teams_conversation_id := msg.conversation_id
            teams_user_id := user.id
            conversation_reference := msg.conversation_reference
            platform := tenant.platform
            platform_conversation_id := conversation_id
            platform_conversation_numeric_id := numeric_id
            platform_user_id := some platform_user_id
            is_resolved := false
            greeting_sent := false
            tenant_id := tenant.id }
        (st.upsert m, some m, true)

/-- MessageRouter._send_to_helpdesk: a mapping without a truthy backend
conversation id or platform user id fails immediately; otherwise the result
is that of _send_with_retries. -/
def send_to_helpdesk (mapping : ConversationMapping)
    (oc : HelpdeskOutcomes) : Bool :=
  if mapping.platform_conversation_id = "" ||
      !strTruthy mapping.platform_user_id then false
  else (send_with_retries oc.send oc.jitter).result

/-- The force_new prelude of handle_teams_message: an open existing mapping
with a truthy backend id is marked resolved (only in the store) before a new
conversation is forced. -/
def force_new_resolve (st : ConversationStore) (msg : TeamsMessageInput)
    (tenant : TenantInfo) : ConversationStore :=
  if msg.force_new then
    match st.get_by_teams_id msg.conversation_id tenant.platform with
    | some existing =>
      if !existing.is_resolved &&
          existing.platform_conversation_id ≠ "" then
        st.mark_resolved existing.platform_conversation_id
          tenant.platform true
      else st
    | none => st
  else st

/-- The trailing conversation-reference refresh of handle_teams_message:
written back only when the inbound reference blob is truthy. -/
def maybe_update_ref (st : ConversationStore) (msg : TeamsMessageInput)
    (tenant : TenantInfo) : ConversationStore :=
  if msg.conversation_reference ≠ [] then
    st.update_conversation_reference msg.conversation_id tenant.platform
      msg.conversation_reference
  else st

/-- The new-conversation branch of handle_teams_message (step 5 and the
trailing conversation-reference update): on creation failure the user gets
an error and the store is left as-is; on success the greeting is sent
exactly once, the mapping is upserted with greeting_sent = True, and a
truthy conversation reference is written back. -/
def teams_create_path (st : ConversationStore) (msg : TeamsMessageInput)
    (tenant : TenantInfo) (oc : HelpdeskOutcomes) :
    ConversationStore × RouterTrace :=
  let r := create_new_conversation st msg tenant oc
  match r.2.1 with
  | none => (r.1, { user_messages := [connect_fail_text]
                    create_called := r.2.2 })
  | some m =>
    let welcome :=
      if strTruthy tenant.welcome_message then
        tenant.welcome_message.getD ""
      else default_welcome_text
    let st2 :=
      if !m.greeting_sent then r.1.upsert { m with greeting_sent := true }
      else r.1
    (maybe_update_ref st2 msg tenant,
     { user_messages := if !m.greeting_sent then [welcome] else []
       create_called := r.2.2 })

/-- MessageRouter.handle_teams_message from the mapping lookup on (step 4):
with force_new the open existing mapping (if its backend id is truthy) is
marked resolved and a new conversation is forced; otherwise a missing or
resolved mapping leads to the new-conversation branch and an open mapping
to the send branch, where a failure reports to the user and leaves the
store untouched and a success refreshes the conversation reference. -/
def handle_teams_message (st : ConversationStore) (msg : TeamsMessageInput)
    (tenant : TenantInfo) (oc : HelpdeskOutcomes) :
    ConversationStore × RouterTrace :=
  let st1 := force_new_resolve st msg tenant
  let mapping :=
    if msg.force_new then none
    else st.get_by_teams_id msg.conversation_id tenant.platform
  match mapping with
  | none => teams_create_path st1 msg tenant oc
  | some m =>
    if m.is_resolved then teams_create_path st1 msg tenant oc
    else
      let success := send_to_helpdesk m oc
      if success then (maybe_update_ref st1 msg tenant, {})
      else (st1, { user_messages := [send_fail_text] })

/-- MessageRouter._find_mapping: primary id first, then the secondary id. -/
def find_mapping (st : ConversationStore) (event : WebhookEvent)
    (platform : String) : Option ConversationMapping :=
  let first :=
    if strTruthy event.conversation_id then
      st.get_by_platform_id (event.conversation_id.getD "") platform
    else none
  match first with
  | some m => some m
  | none =>
    if strTruthy event.conversation_numeric_id then
      st.get_by_platform_id (event.conversation_numeric_id.getD "")
        platform
    else none

/-- The store effect of MessageRouter.handle_webhook: nothing without a
truthy conversation id or a matching mapping; a resolution event marks the
mapping resolved by its primary-or-secondary backend id (skipping the store
call when both are blank); a message event mutates nothing. -/
def handle_webhook (st : ConversationStore) (platform : String)
    (event : WebhookEvent) : ConversationStore :=
  if !strTruthy (pyOrO event.conversation_id event.conversation_numeric_id)
  then st
  else
    match find_mapping st event platform with
    | none => st
    | some mapping =>
      if event.action = "conversation_resolution" then
        let cid :=
          pyOrDefault (some mapping.platform_conversation_id)
            mapping.platform_conversation_numeric_id ""
        if cid = "" then st
        else st.mark_resolved cid platform true
      else st

/-- One router operation: an inbound Teams message (with its backend-call
outcome oracles) or an inbound backend webhook event. -/
inductive RouterOp : Type
  | teams (msg : TeamsMessageInput) (tenant : TenantInfo)
      (oc : HelpdeskOutcomes)
  | webhook (platform : String) (event : WebhookEvent)

/-- The store after one router operation. -/
def routerStep (st : ConversationStore) : RouterOp → ConversationStore
  | .teams msg tenant oc => (handle_teams_message st msg tenant oc).1
  | .webhook pf ev => handle_webhook st pf ev

/-- The store after a sequence of router operations. -/
def routerRun (st : ConversationStore) (ops : List RouterOp) :
    ConversationStore :=
  ops.foldl routerStep st

/-- At most one mapping per (chat conversation id, platform) key. -/
def keyUnique (s : ConversationStore) : Prop :=
  s.mappings.Pairwise
    (fun a b => ¬(a.teams_conversation_id = b.teams_conversation_id ∧
      a.platform = b.platform))

/-- At most one open mapping per (chat conversation id, platform) key. -/
def atMostOneOpen (s : ConversationStore) : Prop :=
  s.mappings.Pairwise
    (fun a b => ¬(a.teams_conversation_id = b.teams_conversation_id ∧
      a.platform = b.platform ∧ a.is_resolved = false ∧
      b.is_resolved = false))

/-- Freshness of backend conversation ids: a successful create_conversation
outcome mints an id distinct from every resolved mapping's backend id on
that platform (backends generate new ids for new conversations). -/
def freshFor (s : ConversationStore) : RouterOp → Prop
  | .teams _ tenant oc =>
    ∀ cid nid, oc.create_conversation = some (cid, nid) →
      ∀ m ∈ s.mappings, m.is_resolved = true → m.platform = tenant.platform →
        m.platform_conversation_id ≠ cid
  | .webhook _ _ => True

theorem markRow_teams (cid pf : String) (b : Bool)
    (m : ConversationMapping) :
    (markRow cid pf b m).teams_conversation_id = m.teams_conversation_id :=
  by unfold markRow; split <;> rfl

theorem markRow_platform (cid pf : String) (b : Bool)
    (m : ConversationMapping) :
    (markRow cid pf b m).platform = m.platform := by
  unfold markRow; split <;> rfl

theorem markRow_pcid (cid pf : String) (b : Bool)
    (m : ConversationMapping) :
    (markRow cid pf b m).platform_conversation_id =
      m.platform_conversation_id := by
  unfold markRow; split <;> rfl

theorem markRow_resolved (cid pf : String) (b : Bool)
    (m : ConversationMapping) :
    (markRow cid pf b m).is_resolved = m.is_resolved ∨
    (markRow cid pf b m).is_resolved = b := by
  unfold markRow; split
  · right; rfl
  · left; rfl

theorem refRow_teams (tid pf : String) (r : List (String × String))
    (m : ConversationMapping) :
    (refRow tid pf r m).teams_conversation_id = m.teams_conversation_id :=
  by unfold refRow; split <;> rfl

theorem refRow_platform (tid pf : String) (r : List (String × String))
    (m : ConversationMapping) :
    (refRow tid pf r m).platform = m.platform := by
  unfold refRow; split <;> rfl

theorem refRow_pcid (tid pf : String) (r : List (String × String))
    (m : ConversationMapping) :
    (refRow tid pf r m).platform_conversation_id =
      m.platform_conversation_id := by
  unfold refRow; split <;> rfl

theorem refRow_resolved (tid pf : String) (r : List (String × String))
    (m : ConversationMapping) :
    (refRow tid pf r m).is_resolved = m.is_resolved := by
  unfold refRow; split <;> rfl

theorem keyUnique_upsert (s : ConversationStore) (m : ConversationMapping)
    (h : keyUnique s) : keyUnique (s.upsert m) := by
  unfold keyUnique ConversationStore.upsert at *
  refine List.Pairwise.cons ?_ (List.Pairwise.filter _ h)
  intro b hb hk
  have hf := List.of_mem_filter hb
  apply absurd hf
  simp [hk.1, hk.2]

theorem keyUnique_mark (s : ConversationStore) (cid pf : String) (b : Bool)
    (h : keyUnique s) : keyUnique (s.mark_resolved cid pf b) := by
  unfold keyUnique ConversationStore.mark_resolved at *
  refine h.map _ (fun a c hac => ?_)
  rw [markRow_teams, markRow_teams, markRow_platform, markRow_platform]
  exact hac

theorem keyUnique_ref (s : ConversationStore) (tid pf : String)
    (r : List (String × String)) (h : keyUnique s) :
    keyUnique (s.update_conversation_reference tid pf r) := by
  unfold keyUnique ConversationStore.update_conversation_reference at *
  refine h.map _ (fun a c hac => ?_)
  rw [refRow_teams, refRow_teams, refRow_platform, refRow_platform]
  exact hac

theorem keyUnique_force (st : ConversationStore) (msg : TeamsMessageInput)
    (tenant : TenantInfo) (h : keyUnique st) :
    keyUnique (force_new_resolve st msg tenant) := by
  unfold force_new_resolve
  split
  · split
    · split
      · exact keyUnique_mark _ _ _ _ h
      · exact h
    · exact h
  · exact h

theorem keyUnique_maybe_ref (st : ConversationStore)
    (msg : TeamsMessageInput) (tenant : TenantInfo) (h : keyUnique st) :
    keyUnique (maybe_update_ref st msg tenant) := by
  unfold maybe_update_ref
  split
  · exact keyUnique_ref _ _ _ _ h
  · exact h

theorem keyUnique_teams_create (st : ConversationStore)
    (msg : TeamsMessageInput) (tenant : TenantInfo)
    (oc : HelpdeskOutcomes) (h : keyUnique st) :
    keyUnique (teams_create_path st msg tenant oc).1 := by
  rcases hu : msg.user with _ | user <;>
    rcases hg : oc.get_or_create_user with _ | pid <;>
    rcases hc : oc.create_conversation with _ | ⟨cid, nid⟩ <;>
    simp only [teams_create_path, create_new_conversation, hu, hg, hc] <;>
    first
      | exact h
      | exact keyUnique_maybe_ref _ _ _
          (keyUnique_upsert _ _ (keyUnique_upsert _ _ h))

theorem keyUnique_teams (st : ConversationStore) (msg : TeamsMessageInput)
    (tenant : TenantInfo) (oc : HelpdeskOutcomes) (h : keyUnique st) :
    keyUnique (handle_teams_message st msg tenant oc).1 := by
  have h1 := keyUnique_force st msg tenant h
  unfold handle_teams_message
  rcases hm : (if msg.force_new then none
      else st.get_by_teams_id msg.conversation_id tenant.platform) with
    _ | m
  · simp only [hm]
    exact keyUnique_teams_create _ _ _ _ h1
  · simp only [hm]
    by_cases hr : m.is_resolved = true
    · rw [if_pos hr]
      exact keyUnique_teams_create _ _ _ _ h1
    · rw [if_neg hr]
      split
      · exact keyUnique_maybe_ref _ _ _ h1
      · exact h1

theorem keyUnique_webhook (st : ConversationStore) (pf : String)
    (ev : WebhookEvent) (h : keyUnique st) :
    keyUnique (handle_webhook st pf ev) := by
  unfold handle_webhook
  split
  · exact h
  · split
    · exact h
    · split
      · dsimp only
        split
        · exact h
        · exact keyUnique_mark _ _ _ _ h
      · exact h

theorem keyUnique_step (s : ConversationStore) (op : RouterOp)
    (h : keyUnique s) : keyUnique (routerStep s op) := by
  cases op with
  | teams msg tenant oc => exact keyUnique_teams _ _ _ _ h
  | webhook pf ev => exact keyUnique_webhook _ _ _ h

theorem keyUnique_run (s : ConversationStore) (ops : List RouterOp)
    (h : keyUnique s) : keyUnique (routerRun s ops) := by
  induction ops generalizing s with
  | nil => exact h
  | cons op rest ih => exact ih _ (keyUnique_step s op h)

theorem atMostOneOpen_of_keyUnique (s : ConversationStore)
    (h : keyUnique s) : atMostOneOpen s := by
  unfold keyUnique atMostOneOpen at *
  exact h.imp (fun {a b} hab hk => hab ⟨hk.1, hk.2.1⟩)

/-- Row provenance within store mutations: every row of the second store
shares its key, platform and backend id with a row of the first, with
is_resolved only ever raised (false to true), never lowered. -/
def Descends (s s' : ConversationStore) : Prop :=
  ∀ m' ∈ s'.mappings, ∃ x ∈ s.mappings,
    m'.teams_conversation_id = x.teams_conversation_id ∧
    m'.platform = x.platform ∧
    m'.platform_conversation_id = x.platform_conversation_id ∧
    (m'.is_resolved = x.is_resolved ∨ m'.is_resolved = true)

theorem Descends.refl (s : ConversationStore) : Descends s s :=
  fun m' h => ⟨m', h, rfl, rfl, rfl, Or.inl rfl⟩

theorem Descends.trans {s1 s2 s3 : ConversationStore}
    (h12 : Descends s1 s2) (h23 : Descends s2 s3) : Descends s1 s3 := by
  intro m' hm'
  obtain ⟨y, hy, ht, hp, hc, hr⟩ := h23 m' hm'
  obtain ⟨x, hx, ht', hp', hc', hr'⟩ := h12 y hy
  refine ⟨x, hx, ht.trans ht', hp.trans hp', hc.trans hc', ?_⟩
  rcases hr with hr | hr
  · rcases hr' with hr' | hr'
    · exact Or.inl (hr.trans hr')
    · exact Or.inr (hr.trans hr')
  · exact Or.inr hr

theorem descends_mark_true (s : ConversationStore) (cid pf : String) :
    Descends s (s.mark_resolved cid pf true) := by
  intro m' hm'
  unfold ConversationStore.mark_resolved at hm'
  obtain ⟨x, hx, rfl⟩ := List.mem_map.mp hm'
  exact ⟨x, hx, markRow_teams .., markRow_platform .., markRow_pcid ..,
    markRow_resolved ..⟩

theorem descends_ref (s : ConversationStore) (tid pf : String)
    (r : List (String × String)) :
    Descends s (s.update_conversation_reference tid pf r) := by
  intro m' hm'
  unfold ConversationStore.update_conversation_reference at hm'
  obtain ⟨x, hx, rfl⟩ := List.mem_map.mp hm'
  exact ⟨x, hx, refRow_teams .., refRow_platform .., refRow_pcid ..,
    Or.inl (refRow_resolved ..)⟩

theorem descends_force (st : ConversationStore) (msg : TeamsMessageInput)
    (tenant : TenantInfo) :
    Descends st (force_new_resolve st msg tenant) := by
  unfold force_new_resolve
  split
  · split
    · split
      · exact descends_mark_true _ _ _
      · exact Descends.refl _
    · exact Descends.refl _
  · exact Descends.refl _

theorem descends_maybe_ref (st : ConversationStore)
    (msg : TeamsMessageInput) (tenant : TenantInfo) :
    Descends st (maybe_update_ref st msg tenant) := by
  unfold maybe_update_ref
  split
  · exact descends_ref _ _ _ _
  · exact Descends.refl _

theorem mem_of_upsert {s : ConversationStore} {m m' : ConversationMapping}
    (h : m' ∈ (s.upsert m).mappings) : m' = m ∨ m' ∈ s.mappings := by
  unfold ConversationStore.upsert at h
  rcases List.mem_cons.mp h with h | h
  · exact Or.inl h
  · exact Or.inr (List.mem_of_mem_filter h)

theorem teams_create_origin (st : ConversationStore)
    (msg : TeamsMessageInput) (tenant : TenantInfo)
    (oc : HelpdeskOutcomes) :
    ∀ m' ∈ (teams_create_path st msg tenant oc).1.mappings,
      (∃ x ∈ st.mappings,
        m'.teams_conversation_id = x.teams_conversation_id ∧
        m'.platform = x.platform ∧
        m'.platform_conversation_id = x.platform_conversation_id ∧
        (m'.is_resolved = x.is_resolved ∨ m'.is_resolved = true)) ∨
      (∃ cid nid, oc.create_conversation = some (cid, nid) ∧
        m'.platform = tenant.platform ∧
        m'.platform_conversation_id = cid) := by
  rcases hu : msg.user with _ | user <;>
    rcases hg : oc.get_or_create_user with _ | pid <;>
    rcases hc : oc.create_conversation with _ | ⟨cid, nid⟩ <;>
    simp only [teams_create_path, create_new_conversation, hu, hg, hc] <;>
    intro m' hm' <;>
    try exact Or.inl ⟨m', hm', rfl, rfl, rfl, Or.inl rfl⟩
  all_goals
    obtain ⟨y, hy, ht, hp, hcd, hr⟩ :=
      descends_maybe_ref _ msg tenant m' hm'
    rcases mem_of_upsert hy with rfl | hy2
    · exact Or.inr ⟨cid, nid, rfl, hp, hcd⟩
    · rcases mem_of_upsert hy2 with rfl | hy3
      · exact Or.inr ⟨cid, nid, rfl, hp, hcd⟩
      · exact Or.inl ⟨y, hy3, ht, hp, hcd, hr⟩

theorem teams_step_origin (st : ConversationStore)
    (msg : TeamsMessageInput) (tenant : TenantInfo)
    (oc : HelpdeskOutcomes) :
    ∀ m' ∈ (handle_teams_message st msg tenant oc).1.mappings,
      (∃ x ∈ st.mappings,
        m'.teams_conversation_id = x.teams_conversation_id ∧
        m'.platform = x.platform ∧
        m'.platform_conversation_id = x.platform_conversation_id ∧
        (m'.is_resolved = x.is_resolved ∨ m'.is_resolved = true)) ∨
      (∃ cid nid, oc.create_conversation = some (cid, nid) ∧
        m'.platform = tenant.platform ∧
        m'.platform_conversation_id = cid) := by
  have hcompose : ∀ m' : ConversationMapping,
      (∃ x ∈ (force_new_resolve st msg tenant).mappings,
        m'.teams_conversation_id = x.teams_conversation_id ∧
        m'.platform = x.platform ∧
        m'.platform_conversation_id = x.platform_conversation_id ∧
        (m'.is_resolved = x.is_resolved ∨ m'.is_resolved = true)) →
      ∃ x ∈ st.mappings,
        m'.teams_conversation_id = x.teams_conversation_id ∧
        m'.platform = x.platform ∧
        m'.platform_conversation_id = x.platform_conversation_id ∧
        (m'.is_resolved = x.is_resolved ∨ m'.is_resolved = true) := by
    intro m' ⟨x, hx, ht, hp, hc, hr⟩
    obtain ⟨z, hz, ht', hp', hc', hr'⟩ := descends_force st msg tenant x hx
    refine ⟨z, hz, ht.trans ht', hp.trans hp', hc.trans hc', ?_⟩
    rcases hr with hr | hr
    · rcases hr' with hr' | hr'
      · exact Or.inl (hr.trans hr')
      · exact Or.inr (hr.trans hr')
    · exact Or.inr hr
  unfold handle_teams_message
  rcases hm : (if msg.force_new then none
      else st.get_by_teams_id msg.conversation_id tenant.platform) with
    _ | m
  · simp only [hm]
    intro m' hm'
    rcases teams_create_origin (force_new_resolve st msg tenant) msg tenant
        oc m' hm' with h | h
    · exact Or.inl (hcompose m' h)
    · exact Or.inr h
  · simp only [hm]
    by_cases hr : m.is_resolved = true
    · rw [if_pos hr]
      intro m' hm'
      rcases teams_create_origin (force_new_resolve st msg tenant) msg
          tenant oc m' hm' with h | h
      · exact Or.inl (hcompose m' h)
      · exact Or.inr h
    · rw [if_neg hr]
      split
      · intro m' hm'
        exact Or.inl (hcompose m'
          (descends_maybe_ref (force_new_resolve st msg tenant) msg tenant
            m' hm'))
      · intro m' hm'
        exact Or.inl (hcompose m'
          (Descends.refl (force_new_resolve st msg tenant) m' hm'))

theorem webhook_descends (st : ConversationStore) (pf : String)
    (ev : WebhookEvent) : Descends st (handle_webhook st pf ev) := by
  unfold handle_webhook
  split
  · exact Descends.refl _
  · split
    · exact Descends.refl _
    · split
      · dsimp only
        split
        · exact Descends.refl _
        · exact descends_mark_true _ _ _
      · exact Descends.refl _

theorem routerStep_origin (s : ConversationStore) (op : RouterOp) :
    ∀ m' ∈ (routerStep s op).mappings,
      (∃ x ∈ s.mappings,
        m'.teams_conversation_id = x.teams_conversation_id ∧
        m'.platform = x.platform ∧
        m'.platform_conversation_id = x.platform_conversation_id ∧
        (m'.is_resolved = x.is_resolved ∨ m'.is_resolved = true)) ∨
      (∃ msg tenant oc cid nid, op = RouterOp.teams msg tenant oc ∧
        oc.create_conversation = some (cid, nid) ∧
        m'.platform = tenant.platform ∧
        m'.platform_conversation_id = cid) := by
  cases op with
  | teams msg tenant oc =>
    intro m' hm'
    rcases teams_step_origin s msg tenant oc m' hm' with h | ⟨cid, nid, hc, hp, hcd⟩
    · exact Or.inl h
    · exact Or.inr ⟨msg, tenant, oc, cid, nid, rfl, hc, hp, hcd⟩
  | webhook pf ev =>
    intro m' hm'
    exact Or.inl (webhook_descends s pf ev m' hm')

theorem step_resolved_guard (s : ConversationStore) (op : RouterOp)
    (hu : keyUnique s) (hf : freshFor s op) :
    ∀ m ∈ s.mappings, m.is_resolved = true →
      ∀ m' ∈ (routerStep s op).mappings,
        m'.teams_conversation_id = m.teams_conversation_id →
        m'.platform = m.platform → m'.is_resolved = false →
        m'.platform_conversation_id ≠ m.platform_conversation_id := by
  intro m hm hres m' hm' hteams hpf hopen
  rcases routerStep_origin s op m' hm' with
    ⟨x, hx, ht, hp, hc, hr⟩ |
    ⟨msg, tenant, oc, cid, nid, hop, hcr, hpl, hcid⟩
  · rcases hr with hr | hr
    · have hxopen : x.is_resolved = false := by rw [← hr]; exact hopen
      have hxm : x ≠ m := by
        intro he
        rw [he, hres] at hxopen
        cases hxopen
      have hsym : Symmetric (fun a b : ConversationMapping =>
          ¬(a.teams_conversation_id = b.teams_conversation_id ∧
            a.platform = b.platform)) :=
        fun a b hab hk => hab ⟨hk.1.symm, hk.2.symm⟩
      have hu' : s.mappings.Pairwise (fun a b =>
          ¬(a.teams_conversation_id = b.teams_conversation_id ∧
            a.platform = b.platform)) := hu
      have hcontra := (hu'.forall hsym) hx hm hxm
      exact fun _ => hcontra ⟨ht.symm.trans hteams, hp.symm.trans hpf⟩
    · rw [hr] at hopen; cases hopen
  · subst hop
    intro hceq
    have hmp : m.platform = tenant.platform := hpf.symm.trans hpl
    exact hf cid nid hcr m hm hres hmp (hceq.symm.trans hcid)

/-- C1: assuming the conversation store enforces the
(chat conversation id, platform) uniqueness key on upsert (which the
spec-modelled store does by construction), after any sequence of router
operations (handle_teams_message, handle_webhook) the store still holds at
most one mapping - and in particular at most one open (is_resolved = false)
mapping - per (chat conversation id, platform) key, and at no step is a
resolved mapping mutated back to open: any open mapping later occupying a
resolved mapping's key is a different backend conversation (its backend
conversation id differs), i.e. the resolved mapping was superseded, never
reopened. Freshness of backend-minted conversation ids is the stated
freshFor hypothesis. -/
theorem conversation_mapping_uniqueness (s : ConversationStore)
    (ops : List RouterOp) (hu : keyUnique s)
    (hfresh : ∀ l1 op l2, ops = l1 ++ op :: l2 →
      freshFor (routerRun s l1) op) :
    keyUnique (routerRun s ops) ∧ atMostOneOpen (routerRun s ops) ∧
    (∀ l1 op l2, ops = l1 ++ op :: l2 →
      ∀ m ∈ (routerRun s l1).mappings, m.is_resolved = true →
        ∀ m' ∈ (routerRun s (l1 ++ [op])).mappings,
          m'.teams_conversation_id = m.teams_conversation_id →
          m'.platform = m.platform → m'.is_resolved = false →
          m'.platform_conversation_id ≠ m.platform_conversation_id) := by
  refine ⟨keyUnique_run s ops hu,
    atMostOneOpen_of_keyUnique _ (keyUnique_run s ops hu), ?_⟩
  intro l1 op l2 hsplit
  have hrw : routerRun s (l1 ++ [op]) = routerStep (routerRun s l1) op := by
    unfold routerRun
    rw [List.foldl_append]
    rfl
  rw [hrw]
  exact step_resolved_guard (routerRun s l1) op (keyUnique_run s l1 hu)
    (hfresh l1 op l2 hsplit)

/-- Witness for conversation_mapping_uniqueness: the empty store and a
single webhook operation. -/
theorem conversation_mapping_uniqueness_witness :
    keyUnique (⟨[]⟩ : ConversationStore) ∧
    keyUnique (routerRun ⟨[]⟩
      [RouterOp.webhook "freshchat" { action := "message_create" }]) ∧
    atMostOneOpen (routerRun ⟨[]⟩
      [RouterOp.webhook "freshchat" { action := "message_create" }]) := by
  have hfresh : ∀ l1 op l2,
      [RouterOp.webhook "freshchat" { action := "message_create" }] =
        l1 ++ op :: l2 →
      freshFor (routerRun ⟨[]⟩ l1) op := by
    intro l1 op l2 h
    match l1, h with
    | [], h =>
      have hop : op =
          RouterOp.webhook "freshchat" { action := "message_create" } :=
        (List.cons_eq_cons.mp h.symm).1
      rw [hop]
      trivial
    | a :: l1', h => simp at h
  have hmain := conversation_mapping_uniqueness ⟨[]⟩
    [RouterOp.webhook "freshchat" { action := "message_create" }]
    List.Pairwise.nil hfresh
  exact ⟨List.Pairwise.nil, hmain.1, hmain.2.1⟩

/-- C4: for an inbound chat message that finds an existing open mapping
(no force_new), if the send into that conversation fails (for example
HTTP 503 on all retries), the router reports the failure to the user,
leaves the store - and hence the mapping, still open - completely
unchanged, and never calls create_conversation. -/
theorem send_failure_keeps_mapping (st : ConversationStore)
    (msg : TeamsMessageInput) (tenant : TenantInfo)
    (oc : HelpdeskOutcomes) (m : ConversationMapping)
    (hforce : msg.force_new = false)
    (hfound : st.get_by_teams_id msg.conversation_id tenant.platform =
      some m)
    (hopen : m.is_resolved = false)
    (hsend : send_to_helpdesk m oc = false) :
    (handle_teams_message st msg tenant oc).1 = st ∧
    (handle_teams_message st msg tenant oc).2 =
      { user_messages := [send_fail_text], create_called := false } ∧
    (handle_teams_message st msg tenant oc).1.get_by_teams_id
      msg.conversation_id tenant.platform = some m := by
  have hst1 : force_new_resolve st msg tenant = st := by
    unfold force_new_resolve
    simp [hforce]
  have hres : handle_teams_message st msg tenant oc =
      (st, { user_messages := [send_fail_text] }) := by
    unfold handle_teams_message
    simp only [hforce, Bool.false_eq_true, if_false, hfound]
    rw [if_neg (by rw [hopen]; exact Bool.false_ne_true)]
    simp only [hsend, Bool.false_eq_true, if_false]
    rw [hst1]
  rw [hres]
  exact ⟨rfl, rfl, hfound⟩

/-- Concrete open mapping for the send-failure witness. -/
def c4_mapping : ConversationMapping :=
  { teams_conversation_id := "t1", teams_user_id := "u1",
    platform := "freshchat", platform_conversation_id := "c1",
    platform_user_id := some "pu1", is_resolved := false,
    greeting_sent := true, tenant_id := "T1" }

/-- Concrete store for the send-failure witness. -/
def c4_store : ConversationStore := ⟨[c4_mapping]⟩

/-- Concrete inbound message for the send-failure witness. -/
def c4_msg : TeamsMessageInput := { conversation_id := "t1" }

/-- Concrete tenant for the send-failure witness. -/
def c4_tenant : TenantInfo := { id := "T1", platform := "freshchat" }

/-- Outcome oracle raising HTTP 503 on every send attempt. -/
def c4_oc : HelpdeskOutcomes :=
  { send := fun _ => SendOutcome.err (SendError.httpStatus 503),
    jitter := fun _ => 0 }

/-- Witness for send_failure_keeps_mapping: HTTP 503 on all three
attempts leaves the store unchanged. -/
theorem send_failure_keeps_mapping_witness :
    (c4_msg.force_new = false ∧
     c4_store.get_by_teams_id c4_msg.conversation_id c4_tenant.platform =
       some c4_mapping ∧
     c4_mapping.is_resolved = false ∧
     send_to_helpdesk c4_mapping c4_oc = false) ∧
    (handle_teams_message c4_store c4_msg c4_tenant c4_oc).1 = c4_store :=
  ⟨⟨rfl, by decide, rfl, by decide⟩,
   (send_failure_keeps_mapping c4_store c4_msg c4_tenant c4_oc c4_mapping
     rfl (by decide) rfl (by decide)).1⟩

/-! ## Tenant configuration service

Embedding of TenantService (app/core/tenant.py): the TTL cache is an
association list from teams tenant id to a cached config with its load
time; the Supabase reads/writes and config decryption are oracles. A raised
exception inside create_tenant/update_tenant is caught by their blanket
except handler, which returns None without touching the cache. -/

/-- TENANT_CACHE_TTL: tenant cache time-to-live, 5 minutes. -/
def TENANT_CACHE_TTL : Int := 300

/-- Freshchat credential bundle (dataclass FreshchatConfig). -/
structure FreshchatConfig where
  api_key : String
  api_url : String := "https://api.freshchat.com/v2"
  inbox_id : String := ""
  webhook_public_key : String := ""
  deriving DecidableEq, Repr

/-- Zendesk credential bundle (dataclass ZendeskConfig). -/
structure ZendeskConfig where
  subdomain : String
  email : String
  api_token : String
  oauth_token : Option String := none
  deriving DecidableEq, Repr

/-- Freshdesk credential bundle (dataclass FreshdeskConfig). -/
structure FreshdeskConfig where
  base_url : String
  api_key : String
  weight_field_key : String := ""
  deriving DecidableEq, Repr

/-- Tenant configuration (dataclass TenantConfig); timestamps dropped. -/
structure TenantConfig where
  id : String
  teams_tenant_id : String
  platform : String
  freshchat : Option FreshchatConfig := none
  zendesk : Option ZendeskConfig := none
  freshdesk : Option FreshdeskConfig := none
  bot_name : String := "IT Helpdesk"
  welcome_message : String := "안녕하세요! IT 헬프데스크입니다. 무엇을 도와드릴까요?"
  deriving DecidableEq, Repr

/-- A cache entry (dataclass CachedTenant). -/
structure CachedTenant where
  config : TenantConfig
  cached_at : Int
  deriving DecidableEq, Repr

/-- The TenantService._cache dict. -/
def TenantCache : Type := List (String × CachedTenant)

/-- TenantService._invalidate_cache: drop the entry for the key. -/
def invalidate_cache (svc : TenantCache) (k : String) : TenantCache :=
  svc.filter (fun p => !(p.1 == k))

/-- Outcome of a store write (db.upsert_tenant / db.update_tenant): the
call raised, returned a falsy result, or succeeded. encrypt_config
failures are folded into raised. -/
inductive DbWriteOutcome : Type
  | raised
  | falsy
  | ok
  deriving DecidableEq, Repr

/-- TenantService.get_tenant: a cache hit within the TTL returns the cached
snapshot without touching the store; otherwise the store is read (dbRead
oracle: the decrypted parsed config, or none when the row is missing) and a
successful read repopulates the cache. -/
def get_tenant (svc : TenantCache) (k : String) (now : Int)
    (dbRead : Option TenantConfig) : Option TenantConfig × TenantCache :=
  match (svc : List (String × CachedTenant)).lookup k with
  | some cached =>
    if ¬(now - cached.cached_at > TENANT_CACHE_TTL) then
      (some cached.config, svc)
    else
      match dbRead with
      | none => (none, svc)
      | some config => (some config, ((k, ⟨config, now⟩) :: svc : TenantCache))
  | none =>
    match dbRead with
    | none => (none, svc)
    | some config => (some config, ((k, ⟨config, now⟩) :: svc : TenantCache))

/-- TenantService.create_tenant: encrypts and upserts; a raised exception
is swallowed (returns None, cache untouched) and a falsy upsert result
returns None before the invalidation line; only a successful write reaches
_invalidate_cache and the fresh get_tenant. -/
def create_tenant (svc : TenantCache) (k : String) (now : Int)
    (w : DbWriteOutcome) (dbReadAfter : Option TenantConfig) :
    Option TenantConfig × TenantCache :=
  match w with
  | .raised => (none, svc)
  | .falsy => (none, svc)
  | .ok => get_tenant (invalidate_cache svc k) k now dbReadAfter

/-- TenantService.update_tenant: a missing existing row returns None
without invalidation; an empty update set returns get_tenant without
invalidation; the db.update_tenant result is not checked, so only a raised
write skips the invalidation, which again happens strictly after the
write. -/
def update_tenant (svc : TenantCache) (k : String) (now : Int)
    (existing : Bool) (has_updates : Bool) (w : DbWriteOutcome)
    (dbReadAfter : Option TenantConfig) :
    Option TenantConfig × TenantCache :=
  if !existing then (none, svc)
  else if !has_updates then get_tenant svc k now dbReadAfter
  else
    match w with
    | .raised => (none, svc)
    | _ => get_tenant (invalidate_cache svc k) k now dbReadAfter

/-- The pre-mutation credential snapshot of the counterexample tenant. -/
def c5_oldCfg : TenantConfig :=
  { id := "row1", teams_tenant_id := "T", platform := "freshchat",
    freshchat := some { api_key := "old-key" } }

/-- The post-mutation credential snapshot of the counterexample tenant. -/
def c5_newCfg : TenantConfig :=
  { id := "row1", teams_tenant_id := "T", platform := "freshchat",
    freshchat := some { api_key := "new-key" } }

/-- The counterexample cache: the old snapshot cached at time 0. -/
def c5_cache : TenantCache := [("T", ⟨c5_oldCfg, 0⟩)]

/-- Counterexample to C5: when the store write raises partway through
create_tenant, the cache entry is NOT invalidated, and a get_tenant 10
seconds later (well within the 5-minute TTL) returns the pre-mutation
credential snapshot, not the new one. -/
theorem tenant_cache_stale_after_failed_write :
    (create_tenant c5_cache "T" 10 DbWriteOutcome.raised
      (some c5_newCfg)).2 = c5_cache ∧
    (get_tenant
      (create_tenant c5_cache "T" 10 DbWriteOutcome.raised
        (some c5_newCfg)).2 "T" 10 (some c5_newCfg)).1 = some c5_oldCfg ∧
    c5_oldCfg ≠ c5_newCfg := by
  refine ⟨rfl, ?_, by decide⟩
  rfl

theorem lookup_invalidate_none (svc : TenantCache) (k : String) :
    (invalidate_cache svc k : List (String × CachedTenant)).lookup k =
      none := by
  induction svc with
  | nil => rfl
  | cons p rest ih =>
    obtain ⟨k', c⟩ := p
    unfold invalidate_cache at *
    by_cases hk : k' = k
    · subst hk
      simp only [List.filter]
      rw [show ((k', c).1 == k') = true from by simp]
      simp only [Bool.not_true]
      exact ih
    · have hb : (k' == k) = false := beq_eq_false_iff_ne.mpr hk
      simp only [List.filter]
      rw [show ((k', c).1 == k) = false from hb]
      simp only [Bool.not_false]
      rw [List.lookup, show (k == k') = false from
        beq_eq_false_iff_ne.mpr (fun h => hk h.symm)]
      exact ih

/-- C5 amended: create_tenant and update_tenant invalidate the cache entry
for the tenant key only after a successful store write; the returned
snapshot then comes from a fresh store read, never from the pre-mutation
cache entry. When the write raises or returns no row (or update_tenant
finds no existing row), the cache entry survives untouched - so a
get_tenant within the TTL can still serve the pre-mutation snapshot. -/
theorem tenant_cache_invalidation_on_success (svc : TenantCache)
    (k : String) (now : Int) (r : Option TenantConfig) :
    (create_tenant svc k now DbWriteOutcome.ok r).1 = r ∧
    (update_tenant svc k now true true DbWriteOutcome.ok r).1 = r ∧
    (∀ w, w ≠ DbWriteOutcome.ok →
      create_tenant svc k now w r = (none, svc)) ∧
    update_tenant svc k now true true DbWriteOutcome.raised r =
      (none, svc) ∧
    (∀ hu w, update_tenant svc k now false hu w r = (none, svc)) := by
  have hget : ∀ k' now' r',
      (get_tenant (invalidate_cache svc k') k' now' r').1 = r' := by
    intro k' now' r'
    unfold get_tenant
    rw [lookup_invalidate_none]
    cases r' <;> rfl
  refine ⟨hget k now r, hget k now r, ?_, rfl, ?_⟩
  · intro w hw
    cases w with
    | raised => rfl
    | falsy => rfl
    | ok => exact absurd rfl hw
  · intro hu w
    rfl

/-- Witness for tenant_cache_invalidation_on_success at the concrete
counterexample cache, discharging the non-ok write hypothesis at raised. -/
theorem tenant_cache_invalidation_on_success_witness :
    (DbWriteOutcome.raised ≠ DbWriteOutcome.ok ∧
      create_tenant c5_cache "T" 10 DbWriteOutcome.raised (some c5_newCfg) =
        (none, c5_cache)) ∧
    (create_tenant c5_cache "T" 10 DbWriteOutcome.ok (some c5_newCfg)).1 =
      some c5_newCfg :=
  ⟨⟨by decide,
    (tenant_cache_invalidation_on_success c5_cache "T" 10
      (some c5_newCfg)).2.2.1 DbWriteOutcome.raised (by decide)⟩,
   (tenant_cache_invalidation_on_success c5_cache "T" 10
     (some c5_newCfg)).1⟩

/-! ## Freshchat webhook routes

Embedding of the two webhook endpoints (app/adapters/freshchat/routes.py):
tenant resolution, signature verification and payload parsing are oracles
recorded in the request; the result captures the HTTP status, whether the
event reached handle_webhook, whether verify_signature was called, and the
log lines relevant to the claims. -/

/-- The log lines the routes can emit that matter here. -/
inductive RouteLog : Type
  | unknown_tenant
  | wrong_platform
  | invalid_signature_warning
  | missing_signature_warning
  | no_handler_error
  deriving DecidableEq, Repr

/-- Observable outcome of one webhook request. -/
structure RouteResult where
  status : Nat
  routed : Bool
  verify_called : Bool
  logs : List RouteLog := []
  deriving DecidableEq, Repr

/-- One request to the tenant-scoped endpoint: the tenant lookup result,
the x-freshchat-signature header ("" when absent), whether the factory
returned a webhook handler, and the oracle outcomes of verify_signature
and parse_webhook. -/
structure WebhookRequest where
  tenant : Option TenantConfig
  signature : String := ""
  handler_present : Bool := true
  verify_result : Bool := true
  parse_result : Option WebhookEvent := none

/-- freshchat_webhook (the tenant-scoped endpoint): 404 for an unknown
tenant, 400 for a non-Freshchat tenant; a present signature with a present
handler is verified, and a failed verification only logs a warning and
continues; an absent signature is never verified and only logs a warning
when a webhook public key is configured; the parsed event (when any) is
routed, and the response is 200 either way. -/
def freshchat_webhook (req : WebhookRequest) : RouteResult :=
  match req.tenant with
  | none => ⟨404, false, false, [RouteLog.unknown_tenant]⟩
  | some tenant =>
    if tenant.platform ≠ "freshchat" then
      ⟨400, false, false, [RouteLog.wrong_platform]⟩
    else
      let verify_called := req.signature ≠ "" && req.handler_present
      let sigLogs :=
        if req.signature ≠ "" && req.handler_present then
          (if !req.verify_result then [RouteLog.invalid_signature_warning]
           else [])
        else if (match tenant.freshchat with
                 | some fc => fc.webhook_public_key != ""
                 | none => false) then
          [RouteLog.missing_signature_warning]
        else []
      if !req.handler_present then
        ⟨200, false, verify_called, sigLogs ++ [RouteLog.no_handler_error]⟩
      else
        match req.parse_result with
        | none => ⟨200, false, verify_called, sigLogs⟩
        | some _ => ⟨200, true, verify_called, sigLogs⟩

/-- One request to the legacy endpoint: the truthy conversation id
extracted from the payload, the tenant id found on the conversation
mapping, the tenant lookup result, and the same oracles as above. -/
structure LegacyRequest where
  conversation_id : Option String := none
  mapping_tenant : Option String := none
  tenant : Option TenantConfig := none
  signature : String := ""
  handler_present : Bool := true
  verify_result : Bool := true
  parse_result : Option WebhookEvent := none

/-- freshchat_webhook_legacy: resolves the tenant through the conversation
mapping; a present signature with a present handler is verified, a failure
again only logs; there is no missing-signature warning on this endpoint;
the parsed event (when any) is routed; every outcome responds 200. -/
def freshchat_webhook_legacy (req : LegacyRequest) : RouteResult :=
  match req.conversation_id with
  | none => ⟨200, false, false, []⟩
  | some _ =>
    match req.mapping_tenant with
    | none => ⟨200, false, false, []⟩
    | some _ =>
      match req.tenant with
      | none => ⟨200, false, false, []⟩
      | some _ =>
        let verify_called := req.signature ≠ "" && req.handler_present
        let sigLogs :=
          if verify_called && !req.verify_result then
            [RouteLog.invalid_signature_warning]
          else []
        if req.handler_present then
          match req.parse_result with
          | none => ⟨200, false, verify_called, sigLogs⟩
          | some _ => ⟨200, true, verify_called, sigLogs⟩
        else ⟨200, false, verify_called, sigLogs⟩

/-- C8: on the webhook endpoint, for a request carrying a signature header,
a failed verification only logs a warning and never rejects the request:
the response status and whether the event is parsed and routed are exactly
those of the same request with a passing verification - the event is routed
iff parsing produced one, and the endpoint responds 200. -/
theorem signature_failure_non_fatal (tenant : TenantConfig) (sig : String)
    (pr : Option WebhookEvent) (hpf : tenant.platform = "freshchat")
    (hsig : sig ≠ "") :
    (freshchat_webhook ⟨some tenant, sig, true, false, pr⟩).status = 200 ∧
    (freshchat_webhook ⟨some tenant, sig, true, false, pr⟩).routed =
      pr.isSome ∧
    (freshchat_webhook ⟨some tenant, sig, true, false, pr⟩).status =
      (freshchat_webhook ⟨some tenant, sig, true, true, pr⟩).status ∧
    (freshchat_webhook ⟨some tenant, sig, true, false, pr⟩).routed =
      (freshchat_webhook ⟨some tenant, sig, true, true, pr⟩).routed ∧
    RouteLog.invalid_signature_warning ∈
      (freshchat_webhook ⟨some tenant, sig, true, false, pr⟩).logs := by
  cases pr <;> simp [freshchat_webhook, hpf, hsig]

/-- Concrete tenant for the signature-failure witness. -/
def c8_tenant : TenantConfig :=
  { id := "row8", teams_tenant_id := "T8", platform := "freshchat",
    freshchat := some { api_key := "k8" } }

/-- Witness for signature_failure_non_fatal at a concrete tenant and
payload. -/
theorem signature_failure_non_fatal_witness :
    (c8_tenant.platform = "freshchat" ∧ "sig1" ≠ "") ∧
    (freshchat_webhook
      ⟨some c8_tenant, "sig1", true, false,
        some { action := "message_create" }⟩).status = 200 :=
  ⟨⟨rfl, by decide⟩,
   (signature_failure_non_fatal c8_tenant "sig1"
     (some { action := "message_create" }) rfl (by decide)).1⟩

/-- C10: a request whose signature header is absent or empty is parsed and
routed without verify_signature ever being called, even when the tenant has
a webhook public key configured - only a missing-signature warning is
logged in that case - and the request is otherwise processed exactly like
one with a passing signature: same status (200) and same routing decision.
The legacy endpoint likewise skips verification for an empty signature and
still routes the parsed event. -/
theorem missing_signature_skips_verification (tenant : TenantConfig)
    (pr : Option WebhookEvent) (cid mt : String)
    (hpf : tenant.platform = "freshchat") :
    (freshchat_webhook ⟨some tenant, "", true, false, pr⟩).verify_called =
      false ∧
    (freshchat_webhook ⟨some tenant, "", true, false, pr⟩).status = 200 ∧
    (freshchat_webhook ⟨some tenant, "", true, false, pr⟩).routed =
      pr.isSome ∧
    (freshchat_webhook ⟨some tenant, "", true, false, pr⟩).status =
      (freshchat_webhook ⟨some tenant, "sig", true, true, pr⟩).status ∧
    (freshchat_webhook ⟨some tenant, "", true, false, pr⟩).routed =
      (freshchat_webhook ⟨some tenant, "sig", true, true, pr⟩).routed ∧
    (∀ fc, tenant.freshchat = some fc → fc.webhook_public_key ≠ "" →
      RouteLog.missing_signature_warning ∈
        (freshchat_webhook ⟨some tenant, "", true, false, pr⟩).logs) ∧
    (freshchat_webhook_legacy
      ⟨some cid, some mt, some tenant, "", true, false, pr⟩).verify_called =
      false ∧
    (freshchat_webhook_legacy
      ⟨some cid, some mt, some tenant, "", true, false, pr⟩).routed =
      pr.isSome ∧
    (freshchat_webhook_legacy
      ⟨some cid, some mt, some tenant, "", true, false, pr⟩).status =
      200 := by
  refine ⟨?_, ?_, ?_, ?_, ?_, ?_, ?_, ?_, ?_⟩
  case _ => cases pr <;> simp [freshchat_webhook, hpf]
  case _ => cases pr <;> simp [freshchat_webhook, hpf]
  case _ => cases pr <;> simp [freshchat_webhook, hpf]
  case _ => cases pr <;> simp [freshchat_webhook, hpf]
  case _ => cases pr <;> simp [freshchat_webhook, hpf]
  case _ =>
    intro fc hfc hkey
    cases pr <;> simp [freshchat_webhook, hpf, hfc, hkey]
  case _ => cases pr <;> simp [freshchat_webhook_legacy, hpf]
  case _ => cases pr <;> simp [freshchat_webhook_legacy, hpf]
  case _ => cases pr <;> simp [freshchat_webhook_legacy, hpf]

/-- Concrete tenant with a configured webhook public key. -/
def c10_tenant : TenantConfig :=
  { id := "row1", teams_tenant_id := "T", platform := "freshchat",
    freshchat := some { api_key := "k", webhook_public_key := "PUBKEY" } }

/-- Witness for missing_signature_skips_verification at a tenant with a
configured webhook public key. -/
theorem missing_signature_skips_verification_witness :
    c10_tenant.platform = "freshchat" ∧
    (freshchat_webhook
      ⟨some c10_tenant, "", true, false,
        some { action := "message_create" }⟩).verify_called = false :=
  ⟨rfl,
   (missing_signature_skips_verification c10_tenant
     (some { action := "message_create" }) "c1" "T" rfl).1⟩

/-! ## Public key normalization

Embedding of FreshchatWebhookHandler._normalize_public_key and the shape of
verify_signature (app/adapters/freshchat/webhook.py). Key text is embedded
as a list of characters; the Python string methods replace/strip/split/join
are modelled over that list. The RSA machinery behind _load_public_key and
public_key.verify is an oracle that consumes the normalized PEM text. -/

/-- The SPKI PEM header line. -/
def beginHeader : List Char := "-----BEGIN PUBLIC KEY-----".data

/-- The SPKI PEM footer line. -/
def endFooter : List Char := "-----END PUBLIC KEY-----".data

/-- The marker the normalizer looks for (line.startswith("-----BEGIN")). -/
def beginMarker : List Char := "-----BEGIN".data

/-- The end marker (line.startswith("-----END")). -/
def endMarker : List Char := "-----END".data

/-- Python str.strip() whitespace. -/
def isPySpace (c : Char) : Bool :=
  c = ' ' || c = '\t' || c = '\n' || c = '\r' || c = '\x0b' || c = '\x0c'

/-- Python str.strip(). -/
def stripChars (l : List Char) : List Char :=
  ((l.dropWhile isPySpace).reverse.dropWhile isPySpace).reverse

/-- Python key.replace("\\n", "\n"): rewrite each backslash-n pair (left to
right, non-overlapping) to a newline. -/
def replaceEscN : List Char → List Char
  | [] => []
  | [c] => [c]
  | c1 :: c2 :: rest =>
    if c1 = '\\' ∧ c2 = 'n' then '\n' :: replaceEscN rest
    else c1 :: replaceEscN (c2 :: rest)

/-- Python key.replace("\\r", ""): delete each backslash-r pair. -/
def replaceEscR : List Char → List Char
  | [] => []
  | [c] => [c]
  | c1 :: c2 :: rest =>
    if c1 = '\\' ∧ c2 = 'r' then replaceEscR rest
    else c1 :: replaceEscR (c2 :: rest)

/-- Python (substring in key) for the needle "-----BEGIN". -/
def containsSub (pat : List Char) : List Char → Bool
  | [] => pat.isEmpty
  | c :: rest => pat.isPrefixOf (c :: rest) || containsSub pat rest

/-- The body re-wrap: for i in range(0, len(line), 64) take line[i:i+64]. -/
def chunk64 (l : List Char) : List (List Char) :=
  if h : l = [] then []
  else l.take 64 :: chunk64 (l.drop 64)
termination_by l.length
decreasing_by
  simp only [List.length_drop]
  have hlen : l.length ≠ 0 := fun h0 => h (List.eq_nil_of_length_eq_zero h0)
  omega

/-- One step of the header/body/footer pass of _normalize_public_key: the
accumulator is (result_lines, in_body); a line outside the body that is
neither a BEGIN nor an END line is dropped. -/
def norm_step (acc : List (List Char) × Bool) (line : List Char) :
    List (List Char) × Bool :=
  if beginMarker.isPrefixOf line then (acc.1 ++ [line], true)
  else if endMarker.isPrefixOf line then (acc.1 ++ [line], false)
  else if acc.2 then (acc.1 ++ chunk64 line, acc.2)
  else acc

/-- Steps 3-4 of _normalize_public_key on the framed key: strip, split on
newlines, strip and drop blank lines, re-wrap the body at 64 columns, and
join with newlines. -/
def normalizeTail (key2 : List Char) : List Char :=
  let lines := (stripChars key2).splitOn '\n'
  let cleaned := (lines.map stripChars).filter (fun l => !l.isEmpty)
  List.intercalate ['\n'] ((cleaned.foldl norm_step ([], false)).1)

/-- Step 2 of _normalize_public_key: a key without PEM framing has its
whitespace removed and is wrapped in the SPKI header and footer; a framed
key passes through. -/
def wrapIfBare (key1 : List Char) : List Char :=
  if !containsSub beginMarker key1 then
    beginHeader ++ '\n' ::
      (key1.filter (fun c => !(c = ' ' || c = '\n' || c = '\t'))) ++
      '\n' :: endFooter
  else key1

/-- FreshchatWebhookHandler._normalize_public_key: an empty key stays
empty; escaped newlines become real ones and escaped carriage returns are
deleted; a key without PEM framing is wrapped; then the framed text is
cleaned and its body re-wrapped at 64 columns. -/
def normalize_public_key (key : List Char) : List Char :=
  if key = [] then []
  else normalizeTail (wrapIfBare (replaceEscR (replaceEscN key)))

/-- FreshchatWebhookHandler.verify_signature: an empty signature fails
immediately; otherwise the verdict of the RSA machinery (oracle verifyRaw:
normalized-pem -> payload -> signature -> accepted) applied to the
normalized key text stored at construction time. -/
def verify_signature
    (verifyRaw : List Char → List Char → List Char → Bool)
    (public_key payload signature : List Char) : Bool :=
  if signature = [] then false
  else verifyRaw (normalize_public_key public_key) payload signature

/-- The base64 alphabet (plus padding) a key body is made of. -/
def base64Char (c : Char) : Bool :=
  c.isAlphanum || c = '+' || c = '/' || c = '='

theorem base64Char_not_space (c : Char) (h : base64Char c = true) :
    isPySpace c = false := by
  by_contra hs
  rw [Bool.not_eq_false] at hs
  simp only [isPySpace, Bool.or_eq_true, decide_eq_true_eq] at hs
  rcases hs with ((((rfl | rfl) | rfl) | rfl) | rfl) | rfl <;>
    exact absurd h (by decide)

theorem base64Char_ne_backslash (c : Char) (h : base64Char c = true) :
    c ≠ '\\' := by
  intro hc; subst hc; exact absurd h (by decide)

theorem base64Char_ne_dash (c : Char) (h : base64Char c = true) :
    c ≠ '-' := by
  intro hc; subst hc; exact absurd h (by decide)

theorem base64Char_ne_newline (c : Char) (h : base64Char c = true) :
    c ≠ '\n' := by
  intro hc; subst hc; exact absurd h (by decide)

theorem base64Char_ne_space (c : Char) (h : base64Char c = true) :
    c ≠ ' ' := by
  intro hc; subst hc; exact absurd h (by decide)

theorem base64Char_ne_tab (c : Char) (h : base64Char c = true) :
    c ≠ '\t' := by
  intro hc; subst hc; exact absurd h (by decide)

theorem replaceEscN_id : ∀ (l : List Char), (∀ c ∈ l, c ≠ '\\') →
    replaceEscN l = l
  | [], _ => rfl
  | [_], _ => rfl
  | c1 :: c2 :: rest, h => by
    show (if c1 = '\\' ∧ c2 = 'n' then '\n' :: replaceEscN rest
      else c1 :: replaceEscN (c2 :: rest)) = c1 :: c2 :: rest
    rw [if_neg (fun hand => h c1 (by simp) hand.1)]
    rw [replaceEscN_id (c2 :: rest)
      (fun c hc => h c (List.mem_cons_of_mem _ hc))]

theorem replaceEscR_id : ∀ (l : List Char), (∀ c ∈ l, c ≠ '\\') →
    replaceEscR l = l
  | [], _ => rfl
  | [_], _ => rfl
  | c1 :: c2 :: rest, h => by
    show (if c1 = '\\' ∧ c2 = 'r' then replaceEscR rest
      else c1 :: replaceEscR (c2 :: rest)) = c1 :: c2 :: rest
    rw [if_neg (fun hand => h c1 (by simp) hand.1)]
    rw [replaceEscR_id (c2 :: rest)
      (fun c hc => h c (List.mem_cons_of_mem _ hc))]

theorem containsSub_false (p0 : Char) (pat : List Char) :
    ∀ (l : List Char), (∀ c ∈ l, c ≠ p0) →
      containsSub (p0 :: pat) l = false
  | [], _ => rfl
  | c :: rest, h => by
    show ((p0 :: pat).isPrefixOf (c :: rest) ||
      containsSub (p0 :: pat) rest) = false
    have hc : (p0 == c) = false :=
      beq_eq_false_iff_ne.mpr (fun he => h c (by simp) he.symm)
    have h1 : (p0 :: pat).isPrefixOf (c :: rest) = false := by
      show ((p0 == c) && pat.isPrefixOf rest) = false
      rw [hc, Bool.false_and]
    rw [h1, Bool.false_or]
    exact containsSub_false p0 pat rest
      (fun x hx => h x (List.mem_cons_of_mem _ hx))

theorem containsSub_of_leading (pat l : List Char) (hne : l ≠ [])
    (h : pat.isPrefixOf l = true) : containsSub pat l = true := by
  cases l with
  | nil => exact absurd rfl hne
  | cons c rest =>
    show (pat.isPrefixOf (c :: rest) || containsSub pat rest) = true
    rw [h, Bool.true_or]

theorem isPrefixOf_append (p l t : List Char)
    (h : p.isPrefixOf l = true) : p.isPrefixOf (l ++ t) = true := by
  rw [List.isPrefixOf_iff_prefix] at *
  exact h.trans (List.prefix_append l t)

theorem chunk64_bounded : ∀ (n : Nat) (l : List Char), l.length ≤ n →
    ∀ c ∈ chunk64 l, c ≠ [] ∧ c.length ≤ 64 ∧ ∀ x ∈ c, x ∈ l := by
  intro n
  induction n with
  | zero =>
    intro l hl c hc
    have : l = [] := List.eq_nil_of_length_eq_zero (Nat.le_zero.mp hl)
    subst this
    rw [chunk64] at hc
    simp at hc
  | succ n ih =>
    intro l hl c hc
    by_cases h : l = []
    · subst h; rw [chunk64] at hc; simp at hc
    · rw [chunk64, dif_neg h] at hc
      rcases List.mem_cons.mp hc with rfl | hc'
      · refine ⟨?_, ?_, fun x hx => List.take_subset _ _ hx⟩
        · intro heq
          rcases List.take_eq_nil_iff.mp heq with h1 | h1 <;>
            first
              | exact h h1
              | exact absurd h1 (by omega)
        · rw [List.length_take]
          exact Nat.min_le_left _ _
      · have hpos : 0 < l.length := List.length_pos.mpr h
        have hdl : (l.drop 64).length ≤ n := by
          rw [List.length_drop]; omega
        have := ih (l.drop 64) hdl c hc'
        exact ⟨this.1, this.2.1,
          fun x hx => List.drop_subset _ _ (this.2.2 x hx)⟩

theorem chunk64_sound (l : List Char) :
    ∀ c ∈ chunk64 l, c ≠ [] ∧ c.length ≤ 64 ∧ ∀ x ∈ c, x ∈ l :=
  chunk64_bounded l.length l le_rfl

theorem chunk64_ne_nil (l : List Char) (h : l ≠ []) : chunk64 l ≠ [] := by
  rw [chunk64, dif_neg h]
  exact List.cons_ne_nil _ _

theorem chunk64_short (c : List Char) (hne : c ≠ [])
    (hlen : c.length ≤ 64) : chunk64 c = [c] := by
  rw [chunk64, dif_neg hne]
  rw [List.take_of_length_le hlen, List.drop_eq_nil_of_le hlen]
  rw [chunk64]
  simp

theorem chunk64_flatMap (L : List (List Char))
    (h : ∀ c ∈ L, c ≠ [] ∧ c.length ≤ 64) :
    L.flatMap chunk64 = L := by
  induction L with
  | nil => rfl
  | cons x xs ih =>
    rw [List.flatMap_cons,
      chunk64_short x (h x (by simp)).1 (h x (by simp)).2,
      ih (fun c hc => h c (List.mem_cons_of_mem _ hc))]
    rfl

theorem dropWhile_eq_self_of_clean (p : Char → Bool) (l : List Char)
    (h : ∀ c ∈ l, p c = false) : l.dropWhile p = l := by
  cases l with
  | nil => rfl
  | cons c t =>
    rw [List.dropWhile_cons, h c (by simp)]
    simp

theorem stripChars_of_clean (l : List Char)
    (h : ∀ c ∈ l, isPySpace c = false) : stripChars l = l := by
  unfold stripChars
  rw [dropWhile_eq_self_of_clean _ _ h,
    dropWhile_eq_self_of_clean _ _
      (fun c hc => h c (List.mem_reverse.mp hc)),
    List.reverse_reverse]

theorem stripChars_sandwich (l : List Char) :
    stripChars ('-' :: (l ++ ['-'])) = '-' :: (l ++ ['-']) := by
  unfold stripChars
  rw [List.dropWhile_cons]
  rw [if_neg (by decide)]
  have hrev : ('-' :: (l ++ ['-'])).reverse = '-' :: (l.reverse ++ ['-']) :=
    by simp
  rw [hrev, List.dropWhile_cons, if_neg (by decide)]
  simp

theorem strip_key2 (M : List Char) :
    stripChars (beginHeader ++ '\n' :: M ++ '\n' :: endFooter) =
      beginHeader ++ '\n' :: M ++ '\n' :: endFooter := by
  have hb : beginHeader = '-' :: "----BEGIN PUBLIC KEY-----".data := by
    decide
  have hf : endFooter = "-----END PUBLIC KEY----".data ++ ['-'] := by
    decide
  have hkey : beginHeader ++ '\n' :: M ++ '\n' :: endFooter =
      '-' :: (("----BEGIN PUBLIC KEY-----".data ++ '\n' :: M ++
        '\n' :: "-----END PUBLIC KEY----".data) ++ ['-']) := by
    rw [hb, hf]
    simp
  rw [hkey, stripChars_sandwich]

theorem intercalate_cons_of_ne_nil (sep x : List Char)
    (xs : List (List Char)) (h : xs ≠ []) :
    List.intercalate sep (x :: xs) = x ++ sep ++ List.intercalate sep xs :=
  by
  cases xs with
  | nil => exact absurd rfl h
  | cons y ys => simp [List.intercalate, List.intersperse]

theorem intercalate_append_last (sep : List Char) (L : List (List Char))
    (B : List Char) (h : L ≠ []) :
    List.intercalate sep (L ++ [B]) =
      List.intercalate sep L ++ sep ++ B := by
  induction L with
  | nil => exact absurd rfl h
  | cons x xs ih =>
    cases xs with
    | nil => simp [List.intercalate, List.intersperse]
    | cons y ys =>
      rw [List.cons_append,
        intercalate_cons_of_ne_nil sep x ((y :: ys) ++ [B]) (by simp),
        ih (by simp), intercalate_cons_of_ne_nil sep x (y :: ys) (by simp)]
      simp [List.append_assoc]

theorem intercalate_single (sep x : List Char) :
    List.intercalate sep [x] = x := by
  simp [List.intercalate, List.intersperse]

theorem key2_intercalate (L : List (List Char)) (h : L ≠ []) :
    beginHeader ++ '\n' :: List.intercalate ['\n'] L ++ '\n' :: endFooter =
      List.intercalate ['\n'] ([beginHeader] ++ L ++ [endFooter]) := by
  have h1 : [beginHeader] ++ L ++ [endFooter] =
      beginHeader :: (L ++ [endFooter]) := by simp
  rw [h1, intercalate_cons_of_ne_nil _ _ _ (by simp),
    intercalate_append_last _ _ _ h]
  simp

theorem mem_intercalate_nl (L : List (List Char)) (x : Char)
    (hx : x ∈ List.intercalate ['\n'] L) : x = '\n' ∨ ∃ l ∈ L, x ∈ l := by
  induction L with
  | nil => simp [List.intercalate, List.intersperse] at hx
  | cons a as ih =>
    cases as with
    | nil =>
      rw [intercalate_single] at hx
      exact Or.inr ⟨a, by simp, hx⟩
    | cons b bs =>
      rw [intercalate_cons_of_ne_nil _ _ _ (by simp)] at hx
      rcases List.mem_append.mp hx with hx1 | hx2
      · rcases List.mem_append.mp hx1 with hx3 | hx4
        · exact Or.inr ⟨a, by simp, hx3⟩
        · exact Or.inl (List.mem_singleton.mp hx4)
      · rcases ih hx2 with h | ⟨l, hl, hxl⟩
        · exact Or.inl h
        · exact Or.inr ⟨l, List.mem_cons_of_mem _ hl, hxl⟩

theorem isPrefixOf_false_of_head (p : List Char) (c : Char)
    (t : List Char) (hc : ('-' == c) = false) :
    ('-' :: p).isPrefixOf (c :: t) = false := by
  show (('-' == c) && p.isPrefixOf t) = false
  rw [hc, Bool.false_and]

theorem fold_body (L : List (List Char))
    (h : ∀ l ∈ L, l ≠ [] ∧ ∀ c ∈ l, base64Char c = true) :
    ∀ acc : List (List Char),
      L.foldl norm_step (acc, true) = (acc ++ L.flatMap chunk64, true) := by
  induction L with
  | nil => intro acc; simp
  | cons x xs ih =>
    intro acc
    have hx := h x (by simp)
    obtain ⟨c, t, rfl⟩ : ∃ c t, x = c :: t := by
      cases x with
      | nil => exact absurd rfl hx.1
      | cons c t => exact ⟨c, t, rfl⟩
    have hcb : base64Char c = true := hx.2 c (by simp)
    have hcdash : ('-' == c) = false :=
      beq_eq_false_iff_ne.mpr (fun he => base64Char_ne_dash c hcb he.symm)
    have hbx : beginMarker.isPrefixOf (c :: t) = false := by
      rw [show beginMarker = '-' :: "----BEGIN".data from by decide]
      exact isPrefixOf_false_of_head _ _ _ hcdash
    have hex : endMarker.isPrefixOf (c :: t) = false := by
      rw [show endMarker = '-' :: "----END".data from by decide]
      exact isPrefixOf_false_of_head _ _ _ hcdash
    rw [List.foldl_cons]
    rw [show norm_step (acc, true) (c :: t) =
        (acc ++ chunk64 (c :: t), true) from by
      unfold norm_step
      rw [hbx, hex]
      simp]
    rw [ih (fun l hl => h l (List.mem_cons_of_mem _ hl))]
    simp

theorem fold_full (L : List (List Char))
    (h : ∀ l ∈ L, l ≠ [] ∧ ∀ c ∈ l, base64Char c = true) :
    (([beginHeader] ++ L ++ [endFooter]).foldl norm_step ([], false)).1 =
      [beginHeader] ++ L.flatMap chunk64 ++ [endFooter] := by
  have h1 : [beginHeader] ++ L ++ [endFooter] =
      beginHeader :: (L ++ [endFooter]) := by simp
  rw [h1, List.foldl_cons]
  rw [show norm_step (([] : List (List Char)), false) beginHeader =
      ([beginHeader], true) from by
    unfold norm_step
    rw [show beginMarker.isPrefixOf beginHeader = true from by decide]
    simp]
  rw [List.foldl_append, fold_body L h [beginHeader]]
  rw [show List.foldl norm_step ([beginHeader] ++ L.flatMap chunk64, true)
      [endFooter] =
      ([beginHeader] ++ L.flatMap chunk64 ++ [endFooter], false) from by
    rw [List.foldl_cons, List.foldl_nil]
    unfold norm_step
    rw [show beginMarker.isPrefixOf endFooter = false from by decide,
      show endMarker.isPrefixOf endFooter = true from by decide]
    simp]

theorem normalize_wrapped (L : List (List Char)) (hL : L ≠ [])
    (h : ∀ l ∈ L, l ≠ [] ∧ ∀ c ∈ l, base64Char c = true) :
    normalizeTail (beginHeader ++ '\n' :: List.intercalate ['\n'] L ++
        '\n' :: endFooter) =
      List.intercalate ['\n']
        ([beginHeader] ++ L.flatMap chunk64 ++ [endFooter]) := by
  unfold normalizeTail
  rw [strip_key2, key2_intercalate L hL]
  rw [List.splitOn_intercalate ([beginHeader] ++ L ++ [endFooter]) '\n'
    (by
      intro l hl
      simp only [List.mem_append, List.mem_singleton] at hl
      rcases hl with (rfl | hl) | rfl
      · decide
      · intro hnl
        exact base64Char_ne_newline '\n' ((h l hl).2 '\n' hnl) rfl
      · decide)
    (by simp)]
  dsimp only
  have hmap : ([beginHeader] ++ L ++ [endFooter]).map stripChars =
      [beginHeader] ++ L ++ [endFooter] := by
    rw [List.map_append, List.map_append]
    have hLmap : L.map stripChars = L := by
      have hid : ∀ l ∈ L, stripChars l = l := fun l hl =>
        stripChars_of_clean l
          (fun c hcc => base64Char_not_space c ((h l hl).2 c hcc))
      calc L.map stripChars = L.map id := List.map_congr_left hid
        _ = L := List.map_id L
    rw [hLmap]
    rw [show [beginHeader].map stripChars = [beginHeader] from by decide,
      show [endFooter].map stripChars = [endFooter] from by decide]
  rw [hmap]
  have hfil : ([beginHeader] ++ L ++ [endFooter]).filter
      (fun l => !l.isEmpty) = [beginHeader] ++ L ++ [endFooter] := by
    rw [List.filter_eq_self]
    intro a ha
    simp only [List.mem_append, List.mem_singleton] at ha
    rcases ha with (rfl | ha) | rfl
    · decide
    · simp [List.isEmpty_iff, (h a ha).1]
    · decide
  rw [hfil, fold_full L h]

/-- C7: the same RSA public key material supplied either as a single-line
base64 string or as a properly framed PEM block wrapped at 64 columns
normalizes to the same canonical PEM text, hence verify_signature - whose
RSA verdict depends on the key only through the normalized text stored at
construction - returns the same boolean for both encodings on every
(payload, signature) pair. -/
theorem key_normalization_roundtrip (b : List Char) (hb : b ≠ [])
    (hc : ∀ c ∈ b, base64Char c = true) :
    normalize_public_key b =
      normalize_public_key (beginHeader ++ '\n' ::
        List.intercalate ['\n'] (chunk64 b) ++ '\n' :: endFooter) ∧
    ∀ (verifyRaw : List Char → List Char → List Char → Bool)
      (payload signature : List Char),
      verify_signature verifyRaw b payload signature =
        verify_signature verifyRaw
          (beginHeader ++ '\n' :: List.intercalate ['\n'] (chunk64 b) ++
            '\n' :: endFooter) payload signature := by
  have hchunkL : ∀ l ∈ chunk64 b, l ≠ [] ∧ ∀ c ∈ l, base64Char c = true :=
    fun l hl => ⟨(chunk64_sound b l hl).1,
      fun c hcc => hc c ((chunk64_sound b l hl).2.2 c hcc)⟩
  have hchunkB : ∀ l ∈ chunk64 b, l ≠ [] ∧ l.length ≤ 64 :=
    fun l hl => ⟨(chunk64_sound b l hl).1, (chunk64_sound b l hl).2.1⟩
  have hleft : normalize_public_key b =
      List.intercalate ['\n']
        ([beginHeader] ++ chunk64 b ++ [endFooter]) := by
    unfold normalize_public_key
    rw [if_neg hb]
    rw [replaceEscN_id b
      (fun c hcc => base64Char_ne_backslash c (hc c hcc))]
    rw [replaceEscR_id b
      (fun c hcc => base64Char_ne_backslash c (hc c hcc))]
    rw [show wrapIfBare b =
        beginHeader ++ '\n' :: b ++ '\n' :: endFooter from by
      unfold wrapIfBare
      rw [show containsSub beginMarker b = false from by
        rw [show beginMarker = '-' :: "----BEGIN".data from by decide]
        exact containsSub_false _ _ b
          (fun c hcc => base64Char_ne_dash c (hc c hcc))]
      rw [show b.filter (fun c => !(c = ' ' || c = '\n' || c = '\t')) = b
        from List.filter_eq_self.mpr (fun c hcc => by
          have hcb := hc c hcc
          simp [base64Char_ne_space c hcb, base64Char_ne_newline c hcb,
            base64Char_ne_tab c hcb])]
      simp]
    rw [show beginHeader ++ '\n' :: b ++ '\n' :: endFooter =
        beginHeader ++ '\n' :: List.intercalate ['\n'] [b] ++
          '\n' :: endFooter from by rw [intercalate_single]]
    rw [normalize_wrapped [b] (by simp)
      (by
        intro l hl
        rw [List.mem_singleton] at hl
        subst hl
        exact ⟨hb, hc⟩)]
    simp
  have hright : normalize_public_key (beginHeader ++ '\n' ::
      List.intercalate ['\n'] (chunk64 b) ++ '\n' :: endFooter) =
      List.intercalate ['\n']
        ([beginHeader] ++ chunk64 b ++ [endFooter]) := by
    unfold normalize_public_key
    rw [if_neg (by
      intro he
      have h1 := (List.append_eq_nil.mp he).1
      have h2 := (List.append_eq_nil.mp h1).1
      exact absurd h2 (by decide))]
    have hnb : ∀ c ∈ beginHeader ++ '\n' ::
        List.intercalate ['\n'] (chunk64 b) ++ '\n' :: endFooter,
        c ≠ '\\' := by
      intro c hcc
      rcases List.mem_append.mp hcc with hleftpart | hrest
      · rcases List.mem_append.mp hleftpart with hbh | hmid0
        · exact (show ∀ x ∈ beginHeader, x ≠ '\\' from by decide) c hbh
        · rcases List.mem_cons.mp hmid0 with rfl | hmid
          · decide
          · rcases mem_intercalate_nl _ c hmid with rfl | ⟨l, hl, hcl⟩
            · decide
            · exact base64Char_ne_backslash c ((hchunkL l hl).2 c hcl)
      · rcases List.mem_cons.mp hrest with rfl | hef
        · decide
        · exact (show ∀ x ∈ endFooter, x ≠ '\\' from by decide) c hef
    rw [replaceEscN_id _ hnb, replaceEscR_id _ hnb]
    rw [show wrapIfBare (beginHeader ++ '\n' ::
        List.intercalate ['\n'] (chunk64 b) ++ '\n' :: endFooter) =
        beginHeader ++ '\n' :: List.intercalate ['\n'] (chunk64 b) ++
          '\n' :: endFooter from by
      unfold wrapIfBare
      rw [containsSub_of_leading beginMarker _
        (by
          intro he
          have h1 := (List.append_eq_nil.mp he).1
          have h2 := (List.append_eq_nil.mp h1).1
          exact absurd h2 (by decide))
        (by
          rw [List.append_assoc]
          exact isPrefixOf_append beginMarker beginHeader _ (by decide))]
      simp]
    rw [normalize_wrapped (chunk64 b) (chunk64_ne_nil b hb) hchunkL]
    rw [chunk64_flatMap (chunk64 b) hchunkB]
  have hmain := hleft.trans hright.symm
  refine ⟨hmain, ?_⟩
  intro verifyRaw payload signature
  unfold verify_signature
  rw [hmain]

/-- Witness for key_normalization_roundtrip at a concrete base64 body. -/
theorem key_normalization_roundtrip_witness :
    ("QUJDREVGRw==".data ≠ [] ∧
      ∀ c ∈ "QUJDREVGRw==".data, base64Char c = true) ∧
    normalize_public_key "QUJDREVGRw==".data =
      normalize_public_key (beginHeader ++ '\n' ::
        List.intercalate ['\n'] (chunk64 "QUJDREVGRw==".data) ++
        '\n' :: endFooter) :=
  ⟨⟨by decide, by decide⟩,
   (key_normalization_roundtrip "QUJDREVGRw==".data (by decide)
     (by decide)).1⟩

end Bridge
